import Mathlib

/-!
# The Windows process-launch executor of Boost.Process

A shallow embedding of `boost::process::detail::windows::executor`
(`include/boost/process/detail/windows/executor.hpp`) and the properties of its
`operator()`: the order of the hook phases, the native call, the classification of
the outcome and the error policy.

Conventions of the embedding.

* The executor's data members are the fields of `executor`.  Everything else a hook or
  the native call can reach lives in `World`: the heap cells of type `std::atomic<int>`
  (the executor's `exit_status` is a `shared_ptr` to one of them) and an arbitrary
  component/operating-system state `σ`.
* A hook is a function on the world that returns the world it leaves behind together
  with the exception it raised, if any: a C++ exception does not undo the writes made
  before the `throw`.
* The calls made by `operator()` are recorded, in order, in a trace that the hooks
  cannot see.
* Declarations that the header only uses (the WinAPI types and `create_process`,
  `get_last_error`, `still_active`) are parameters, collected in `Platform`.
-/

namespace BoostProcess

/-! ## Library types -/

/-- A raw pointer or handle value; the null pointer is address zero. -/
abbrev Ptr := Nat

/-- The null pointer. -/
def nullptr : Ptr := 0

/-- The category object a `std::error_code` refers to. -/
inductive error_category where
  | system_category
  | generic_category
  | other (id : Nat)
  deriving DecidableEq, Repr

/-- A `std::error_code`: a value and a category. -/
structure error_code where
  value : Int
  category : error_category
  deriving DecidableEq, Repr

/-- The effect of `std::error_code::clear()`: value zero in the system category. -/
def error_code.clear (_e : error_code) : error_code :=
  ⟨0, error_category.system_category⟩

/-- The conversion `explicit operator bool` of `std::error_code`: the value is non-zero. -/
def error_code.toBool (e : error_code) : Bool :=
  e.value != 0

/-- The WinAPI structure `PROCESS_INFORMATION_` filled in by the native call. -/
structure PROCESS_INFORMATION_ where
  hProcess : Ptr
  hThread : Ptr
  dwProcessId : Nat
  dwThreadId : Nat
  deriving DecidableEq, Repr

/-- An exception object in flight: `std::system_error(ec)`, `std::system_error(ec, msg)`
or any other exception a component may raise. -/
inductive Exception where
  | system_error (code : error_code) (what_arg : Option String)
  | other (id : Nat)
  deriving DecidableEq, Repr

/-- The wrapper `child_handle(proc_info)` around the identifiers of a process. -/
structure child_handle where
  proc_info : PROCESS_INFORMATION_
  deriving DecidableEq, Repr

/-- Modelled from the spec: the class `child` (`boost/process/child.hpp`, not part of the
sources at hand).  The executor builds a handle in two ways only: `child()`, the
default/empty handle that owns no OS resource and is distinguishable from a live one, and
`child{child_handle(proc_info), exit_status}`, which holds the process identifiers and
shares the exit-status cell (given here by the address of the cell). -/
inductive child where
  | default
  | mk (handle : child_handle) (exit_status : Nat)
  deriving DecidableEq, Repr

/-! ## The executor and its environment -/

/-- The data members of `executor<Sequence>`, those inherited from `startup_info_impl`
first.  `SI` is the type of the startup-info block; `exit_status` is the address of the
shared `std::atomic<int>` cell. -/
structure executor (SI : Type) where
  creation_flags : Nat
  startup_info : SI
  proc_attrs : Ptr
  thread_attrs : Ptr
  inherit_handles : Int
  work_dir : Ptr
  cmd_line : Ptr
  exe : Ptr
  env : Ptr
  ec : error_code
  proc_info : PROCESS_INFORMATION_
  exit_status : Nat

/-- Everything a hook can read and write: the executor, the heap of `std::atomic<int>`
cells and the remaining state `σ` (the components themselves, the operating system). -/
structure World (SI σ : Type) where
  exec : executor SI
  atomics : Nat → Int
  ext : σ

/-- The ten arguments of `create_process` but the last (the output buffer), in order. -/
structure create_process_args (SI : Type) where
  lpApplicationName : Ptr
  lpCommandLine : Ptr
  lpProcessAttributes : Ptr
  lpThreadAttributes : Ptr
  bInheritHandles : Int
  dwCreationFlags : Nat
  lpEnvironment : Ptr
  lpCurrentDirectory : Ptr
  lpStartupInfo : SI
  deriving DecidableEq, Repr

/-- The declarations `executor.hpp` uses without defining them.  `create_process` gets the
arguments, the current contents of the output buffer and the outside state, and yields its
return value, the contents of the output buffer and the new outside state;
`get_last_error` reads the last OS error; `still_active` is the sentinel of a running
process; `creation_flags` and `startup_info` are the default member initialisers of
`startup_info_impl`. -/
structure Platform (SI σ : Type) where
  still_active : Int
  creation_flags : Nat
  startup_info : SI
  create_process : create_process_args SI → PROCESS_INFORMATION_ → σ → Int × PROCESS_INFORMATION_ × σ
  get_last_error : σ → error_code

/-- A hook body: the world it leaves behind and the exception it raised, if any. -/
abbrev Hook (SI σ : Type) := World SI σ → Option Exception × World SI σ

/-- What the `const std::error_code &` held by `on_error_t` is bound to: the executor's
own member `ec` (setup-failure branch) or the local variable `last_error`. -/
inductive error_ref where
  | exec_ec
  | last_error (v : error_code)
  deriving DecidableEq, Repr

/-- Reading through the reference in a given world. -/
def error_ref.deref {SI σ : Type} (r : error_ref) (w : World SI σ) : error_code :=
  match r with
  | error_ref.exec_ec => w.exec.ec
  | error_ref.last_error v => v

/-- A component of the sequence: its three hooks (a component that does not implement a
hook has the empty body) and whether its type is an error handler. -/
structure Component (SI σ : Type) where
  is_error_handler : Bool
  on_setup : Hook SI σ
  on_error : error_ref → Hook SI σ
  on_success : Hook SI σ

/-- Modelled from the spec: the trait `has_error_handler<Sequence>`
(`boost/process/detail/traits.hpp`, not part of the sources at hand): whether the
sequence contains a component of the distinguished error-handling kind. -/
def has_error_handler {SI σ : Type} (seq : List (Component SI σ)) : Bool :=
  seq.any (fun c => c.is_error_handler)

/-! ## The trace of calls -/

/-- One call made by `operator()`: a hook of the component at position `i` (for `on_error`
with the error code the reference yields at the moment of the call) or the native call
with its arguments. -/
inductive Event (SI : Type) where
  | on_setup (i : Nat)
  | on_error (i : Nat) (error : error_code)
  | on_success (i : Nat)
  | create_process (args : create_process_args SI)
  deriving DecidableEq, Repr

/-- An event without its payload. -/
inductive Tag where
  | setup (i : Nat)
  | error (i : Nat)
  | success (i : Nat)
  | native
  deriving DecidableEq, Repr

/-- The tag of an event. -/
def Event.tag {SI : Type} : Event SI → Tag
  | Event.on_setup i => Tag.setup i
  | Event.on_error i _ => Tag.error i
  | Event.on_success i => Tag.success i
  | Event.create_process _ => Tag.native

/-- The position carried by the tag of a call of `on_setup`. -/
def Tag.setup_index : Tag → Option Nat
  | Tag.setup i => some i
  | _ => none

/-- The position carried by the tag of a call of `on_error`. -/
def Tag.error_index : Tag → Option Nat
  | Tag.error i => some i
  | _ => none

/-- The world together with the calls made so far. -/
structure State (SI σ : Type) where
  world : World SI σ
  trace : List (Event SI)

/-! ## The member functions -/

/-- The overloads of `internal_error_handle`, selected by `has_error_handler`: store the
code in `ec`, or throw `std::system_error(ec, msg)`. -/
def internal_error_handle {SI σ : Type} (ec : error_code) (msg : String) (tag : Bool)
    (w : World SI σ) : Option Exception × World SI σ :=
  if tag then (none, { w with exec := { w.exec with ec := ec } })
  else (some (Exception.system_error ec (some msg)), w)

/-- The overloads of `internal_throw`: nothing, or throw `std::system_error(ec)`. -/
def internal_throw (tag : Bool) (ec : error_code) : Option Exception :=
  if tag then none else some (Exception.system_error ec none)

/-- The member `handle_error(ec, msg)`. -/
def handle_error {SI σ : Type} (seq : List (Component SI σ)) (ec : error_code)
    (msg : String) (w : World SI σ) : Option Exception × World SI σ :=
  internal_error_handle ec msg (has_error_handler seq) w

/-- The function object `on_setup_t`, applied to the component at position `i`. -/
def on_setup_t {SI σ : Type} (i : Nat) (t : Component SI σ) (s : State SI σ) :
    Option Exception × State SI σ :=
  let r := t.on_setup s.world
  (r.1, ⟨r.2, s.trace ++ [Event.on_setup i]⟩)

/-- The function object `on_error_t` holding the reference `error`. -/
def on_error_t {SI σ : Type} (error : error_ref) (i : Nat) (t : Component SI σ)
    (s : State SI σ) : Option Exception × State SI σ :=
  let r := t.on_error error s.world
  (r.1, ⟨r.2, s.trace ++ [Event.on_error i (error.deref s.world)]⟩)

/-- The function object `on_success_t`. -/
def on_success_t {SI σ : Type} (i : Nat) (t : Component SI σ) (s : State SI σ) :
    Option Exception × State SI σ :=
  let r := t.on_success s.world
  (r.1, ⟨r.2, s.trace ++ [Event.on_success i]⟩)

/-- The algorithm `boost::fusion::for_each(seq, f)`: apply `f` to the elements in order; an
exception leaves the loop.  The first argument of `f` is the position of the element. -/
def for_each {SI σ : Type}
    (f : Nat → Component SI σ → State SI σ → Option Exception × State SI σ) :
    Nat → List (Component SI σ) → State SI σ → Option Exception × State SI σ
  | _, [], s => (none, s)
  | i, t :: ts, s =>
    match f i t s with
    | (none, s1) => for_each f (i + 1) ts s1
    | (some e, s1) => (some e, s1)

/-- The first statement of `operator()`: `for_each(seq, on_setup)`. -/
def setup_phase {SI σ : Type} (seq : List (Component SI σ)) (s : State SI σ) :
    Option Exception × State SI σ :=
  for_each on_setup_t 0 seq s

/-- The arguments `operator()` passes to `create_process`, read off the executor. -/
def native_args {SI : Type} (e : executor SI) : create_process_args SI :=
  { lpApplicationName := e.exe
    lpCommandLine := e.cmd_line
    lpProcessAttributes := e.proc_attrs
    lpThreadAttributes := e.thread_attrs
    bInheritHandles := e.inherit_handles
    dwCreationFlags := e.creation_flags
    lpEnvironment := e.env
    lpCurrentDirectory := e.work_dir
    lpStartupInfo := e.startup_info }

/-- The call `int err_code = create_process(..., &proc_info)`: the return value and the
state in which `proc_info` and the outside state are those the call produced. -/
def native_call {SI σ : Type} (P : Platform SI σ) (s : State SI σ) : Int × State SI σ :=
  let r := P.create_process (native_args s.world.exec) s.world.exec.proc_info s.world.ext
  (r.1, ⟨{ s.world with exec := { s.world.exec with proc_info := r.2.1 }, ext := r.2.2 },
         s.trace ++ [Event.create_process (native_args s.world.exec)]⟩)

/-- The statement `if (err_code != 0) { ec.clear(); for_each(seq, on_success); }`. -/
def success_phase {SI σ : Type} (seq : List (Component SI σ)) (err_code : Int)
    (s : State SI σ) : Option Exception × State SI σ :=
  if err_code ≠ 0 then
    for_each on_success_t 0 seq
      ⟨{ s.world with exec := { s.world.exec with ec := s.world.exec.ec.clear } }, s.trace⟩
  else (none, s)

/-- How a call of `operator()` ends: it returns a handle or an exception leaves it. -/
inductive Outcome where
  | returned (c : child)
  | thrown (e : Exception)
  deriving DecidableEq, Repr

/-- The member `child operator()()`. -/
def operator_call {SI σ : Type} (P : Platform SI σ) (seq : List (Component SI σ))
    (s0 : State SI σ) : Outcome × State SI σ :=
  let r1 := setup_phase seq s0
  match r1.1 with
  | some e => (Outcome.thrown e, r1.2)
  | none =>
    if r1.2.world.exec.ec.toBool then
      let r2 := for_each (on_error_t error_ref.exec_ec) 0 seq r1.2
      match r2.1 with
      | some e => (Outcome.thrown e, r2.2)
      | none => (Outcome.returned child.default, r2.2)
    else
      let n := native_call P r1.2
      let err_code := n.1
      let c := child.mk ⟨n.2.world.exec.proc_info⟩ n.2.world.exec.exit_status
      let r3 := success_phase seq err_code n.2
      match r3.1 with
      | some e => (Outcome.thrown e, r3.2)
      | none =>
        if err_code = 0 ∨ r3.2.world.exec.ec.toBool = true then
          let last_error :=
            if err_code = 0 then P.get_last_error r3.2.world.ext else r3.2.world.exec.ec
          let r4 := for_each (on_error_t (error_ref.last_error last_error)) 0 seq r3.2
          match r4.1 with
          | some e => (Outcome.thrown e, r4.2)
          | none =>
            match internal_throw (has_error_handler seq) last_error with
            | some e => (Outcome.thrown e, r4.2)
            | none => (Outcome.returned child.default, r4.2)
        else (Outcome.returned c, r3.2)

/-- The constructor of `executor` with its default member initialisers; `cell` is the
address `std::make_shared` returned for the exit-status cell. -/
def executor.init {SI σ : Type} (P : Platform SI σ) (cell : Nat) : executor SI :=
  { creation_flags := P.creation_flags
    startup_info := P.startup_info
    proc_attrs := nullptr
    thread_attrs := nullptr
    inherit_handles := 0
    work_dir := nullptr
    cmd_line := nullptr
    exe := nullptr
    env := nullptr
    ec := ⟨0, error_category.system_category⟩
    proc_info := ⟨nullptr, nullptr, 0, 0⟩
    exit_status := cell }

/-- The function `make_executor(seq)`: a new executor in a world in which the new
exit-status cell at address `cell` holds `still_active`. -/
def make_executor {SI σ : Type} (P : Platform SI σ) (cell : Nat) (atomics : Nat → Int)
    (ext : σ) : World SI σ :=
  { exec := executor.init P cell
    atomics := fun a => if a = cell then P.still_active else atomics a
    ext := ext }

/-- One launch attempt `run()`: `operator()` on the given world, with an empty trace. -/
def run {SI σ : Type} (P : Platform SI σ) (seq : List (Component SI σ))
    (w : World SI σ) : Outcome × State SI σ :=
  operator_call P seq ⟨w, []⟩


/-! ## Observation points -/

/-- The state after the setup phase of `run()`. -/
def after_setup {SI σ : Type} (seq : List (Component SI σ)) (w : World SI σ) : State SI σ :=
  (setup_phase seq ⟨w, []⟩).2

/-- The value `err_code` the native call returns when made after the setup phase. -/
def native_result {SI σ : Type} (P : Platform SI σ) (seq : List (Component SI σ))
    (w : World SI σ) : Int :=
  (native_call P (after_setup seq w)).1

/-- The state right after the native call. -/
def after_native {SI σ : Type} (P : Platform SI σ) (seq : List (Component SI σ))
    (w : World SI σ) : State SI σ :=
  (native_call P (after_setup seq w)).2

/-- The state after the statement that runs the success hooks. -/
def after_success {SI σ : Type} (P : Platform SI σ) (seq : List (Component SI σ))
    (w : World SI σ) : State SI σ :=
  (success_phase seq (native_result P seq w) (after_native P seq w)).2

/-- The local `last_error` of the failure branch after the native call: the last OS error
when the call returned zero, else the contents of the error slot. -/
def last_error {SI σ : Type} (P : Platform SI σ) (seq : List (Component SI σ))
    (w : World SI σ) : error_code :=
  if native_result P seq w = 0 then P.get_last_error (after_success P seq w).world.ext
  else (after_success P seq w).world.exec.ec

/-- The handle `c` that `operator()` builds right after the native call. -/
def live_child {SI σ : Type} (P : Platform SI σ) (seq : List (Component SI σ))
    (w : World SI σ) : child :=
  child.mk ⟨(after_native P seq w).world.exec.proc_info⟩ (after_native P seq w).world.exec.exit_status

/-- No hook of any component of the sequence raises an exception, in any world. -/
def no_hook_throws {SI σ : Type} (seq : List (Component SI σ)) : Prop :=
  ∀ t ∈ seq, ∀ w : World SI σ,
    (t.on_setup w).1 = none ∧ (t.on_success w).1 = none ∧ ∀ r, (t.on_error r w).1 = none

/-- The positions of the components whose `on_setup` was called, in the order of the calls. -/
def setup_indices {SI : Type} (tr : List (Event SI)) : List Nat :=
  (tr.map Event.tag).filterMap Tag.setup_index

/-- The positions of the components whose `on_error` was called, in the order of the calls. -/
def error_indices {SI : Type} (tr : List (Event SI)) : List Nat :=
  (tr.map Event.tag).filterMap Tag.error_index

/-- An attempt fails when the error slot is set after setup, or the native call returns
zero, or the error slot is set after the success hooks. -/
def failed_attempt {SI σ : Type} (P : Platform SI σ) (seq : List (Component SI σ))
    (w : World SI σ) : Prop :=
  (after_setup seq w).world.exec.ec.toBool = true ∨ native_result P seq w = 0 ∨
    (after_success P seq w).world.exec.ec.toBool = true

/-- No hook of the sequence writes the error slot of the executor. -/
def no_hook_writes_ec {SI σ : Type} (seq : List (Component SI σ)) : Prop :=
  ∀ t ∈ seq, ∀ w : World SI σ,
    (t.on_setup w).2.exec.ec = w.exec.ec ∧ (t.on_success w).2.exec.ec = w.exec.ec ∧
      ∀ r, (t.on_error r w).2.exec.ec = w.exec.ec

/-- No `on_success` hook of the sequence sets the error slot: it leaves a clear slot clear. -/
def on_success_keeps_clear {SI σ : Type} (seq : List (Component SI σ)) : Prop :=
  ∀ t ∈ seq, ∀ w : World SI σ,
    w.exec.ec.toBool = false → (t.on_success w).2.exec.ec.toBool = false

/-- The hook body leaves the exit-status cell of the executor alone: the member
`exit_status` still points to the same cell and the cell holds the same value. -/
def keeps_exit_status {SI σ : Type} (hk : Hook SI σ) : Prop :=
  ∀ w : World SI σ, (hk w).2.exec.exit_status = w.exec.exit_status ∧
    (hk w).2.atomics w.exec.exit_status = w.atomics w.exec.exit_status

/-- No hook of the sequence writes the exit-status cell of the executor. -/
def no_hook_writes_exit_status {SI σ : Type} (seq : List (Component SI σ)) : Prop :=
  ∀ t ∈ seq, keeps_exit_status t.on_setup ∧ keeps_exit_status t.on_success ∧
    ∀ r, keeps_exit_status (t.on_error r)

/-- The argument lists of the native calls recorded in a trace, in the order of the calls. -/
def native_calls {SI : Type} (tr : List (Event SI)) : List (create_process_args SI) :=
  tr.filterMap (fun ev => match ev with
    | Event.create_process a => some a
    | _ => none)

/-- The statements of `operator()` that follow the native call, from the construction of
the handle `c` to the end, as a function of the value `err_code` and of the state in which
the call returned. -/
def classify_outcome {SI σ : Type} (P : Platform SI σ) (seq : List (Component SI σ))
    (err_code : Int) (s : State SI σ) : Outcome × State SI σ :=
  let c := child.mk ⟨s.world.exec.proc_info⟩ s.world.exec.exit_status
  let r3 := success_phase seq err_code s
  match r3.1 with
  | some e => (Outcome.thrown e, r3.2)
  | none =>
    if err_code = 0 ∨ r3.2.world.exec.ec.toBool = true then
      let last_error :=
        if err_code = 0 then P.get_last_error r3.2.world.ext else r3.2.world.exec.ec
      let r4 := for_each (on_error_t (error_ref.last_error last_error)) 0 seq r3.2
      match r4.1 with
      | some e => (Outcome.thrown e, r4.2)
      | none =>
        match internal_throw (has_error_handler seq) last_error with
        | some e => (Outcome.thrown e, r4.2)
        | none => (Outcome.returned child.default, r4.2)
    else (Outcome.returned c, r3.2)

/-- The state `s` with the error slot of the executor overwritten by `ec`. -/
def State.with_ec {SI σ : Type} (s : State SI σ) (ec : error_code) : State SI σ :=
  ⟨{ s.world with exec := { s.world.exec with ec := ec } }, s.trace⟩

/-- In `for_each(pre ++ t :: post, f)` started in state `s`, the calls on the components of
`pre` return normally and the call on the next component `t` throws `e`. -/
def throws_at {SI σ : Type}
    (f : Nat → Component SI σ → State SI σ → Option Exception × State SI σ)
    (pre : List (Component SI σ)) (t : Component SI σ) (s : State SI σ) (e : Exception) : Prop :=
  (for_each f 0 pre s).1 = none ∧ (f pre.length t (for_each f 0 pre s).2).1 = some e

/-- The state in which the call on `t` that follows the calls on `pre` ends. -/
def state_at_throw {SI σ : Type}
    (f : Nat → Component SI σ → State SI σ → Option Exception × State SI σ)
    (pre : List (Component SI σ)) (t : Component SI σ) (s : State SI σ) : State SI σ :=
  (f pre.length t (for_each f 0 pre s).2).2

/-- The four shapes of a complete trace for a sequence of `n` components, as tags: setup
failure, failed native call, successful launch, and successful native call with the error
slot set after the success hooks. -/
def shape (n : Nat) : Fin 4 → List Tag
  | 0 => (List.range n).map Tag.setup ++ (List.range n).map Tag.error
  | 1 => (List.range n).map Tag.setup ++ Tag.native :: (List.range n).map Tag.error
  | 2 => (List.range n).map Tag.setup ++ Tag.native :: (List.range n).map Tag.success
  | 3 => (List.range n).map Tag.setup ++
      Tag.native :: ((List.range n).map Tag.success ++ (List.range n).map Tag.error)

/-! ## Concrete instances -/

namespace Demo

/-- A platform whose outside state is the last OS error: the native call fails with error 2
when no executable is set, and otherwise succeeds with fixed process identifiers. -/
def P : Platform Unit Nat :=
  { still_active := 259
    creation_flags := 0
    startup_info := ()
    create_process := fun a pi _ =>
      if a.lpApplicationName = 0 then (0, pi, 2) else (1, ⟨100, 101, 7, 8⟩, 0)
    get_last_error := fun n => ⟨n, error_category.system_category⟩ }

/-- A component that implements no hook. -/
def noop : Component Unit Nat :=
  { is_error_handler := false
    on_setup := fun w => (none, w)
    on_error := fun _ w => (none, w)
    on_success := fun w => (none, w) }

/-- A component whose `on_setup` sets the executable. -/
def set_exe : Component Unit Nat :=
  { noop with on_setup := fun w => (none, { w with exec := { w.exec with exe := 1 } }) }

/-- An error-handling component with empty hooks. -/
def error_handler : Component Unit Nat :=
  { noop with is_error_handler := true }

/-- A component whose `on_setup` writes the error slot of the executor. -/
def set_ec : Component Unit Nat :=
  { noop with
    on_setup := fun w =>
      (none, { w with exec := { w.exec with ec := ⟨5, error_category.generic_category⟩ } }) }

/-- A component whose `on_success` writes the error slot of the executor. -/
def fail_on_success : Component Unit Nat :=
  { noop with
    on_success := fun w =>
      (none, { w with exec := { w.exec with ec := ⟨9, error_category.generic_category⟩ } }) }

/-- A freshly constructed executor; its exit-status cell is at address 0. -/
def w0 : World Unit Nat :=
  make_executor P 0 (fun _ => 0) 0

/-- An error-handling component whose `on_setup` writes the error slot of the executor. -/
def handler_set_ec : Component Unit Nat :=
  { set_ec with is_error_handler := true }

/-- A component whose `on_error` reports a further error through `handle_error`; `policy` is
the value of `has_error_handler` for the sequence the component is part of. -/
def report_on_error (policy : Bool) : Component Unit Nat :=
  { noop with
    on_error := fun _ w =>
      internal_error_handle ⟨7, error_category.generic_category⟩ "cleanup failed" policy w }

/-- A component whose `on_setup` reports an error through `handle_error`; `policy` is the
value of `has_error_handler` for the sequence the component is part of. -/
def report_on_setup (policy : Bool) : Component Unit Nat :=
  { noop with
    on_setup := fun w =>
      internal_error_handle ⟨3, error_category.generic_category⟩ "bad configuration" policy w }

/-- A component whose `on_setup` throws an exception of its own. -/
def throw_on_setup : Component Unit Nat :=
  { noop with on_setup := fun w => (some (Exception.other 1), w) }

/-- A component whose `on_success` throws an exception of its own. -/
def throw_on_success : Component Unit Nat :=
  { noop with on_success := fun w => (some (Exception.other 2), w) }

/-- A component whose `on_error` throws an exception of its own. -/
def throw_on_error : Component Unit Nat :=
  { noop with on_error := fun _ w => (some (Exception.other 3), w) }

/-- A state as the native call could leave it: the process identifiers are filled in and
the error slot holds an error. -/
def after_call_with_error : State Unit Nat :=
  { world :=
      { exec := { executor.init P 0 with
                  exe := 1
                  proc_info := ⟨100, 101, 7, 8⟩
                  ec := ⟨5, error_category.generic_category⟩ }
        atomics := fun _ => 259
        ext := 0 }
    trace := [Event.on_setup 0, Event.create_process ⟨1, 0, 0, 0, 0, 0, 0, 0, ()⟩] }

end Demo

/-! ## Lemmas on `for_each` -/

theorem for_each_cons {SI σ : Type}
    (f : Nat → Component SI σ → State SI σ → Option Exception × State SI σ)
    (i : Nat) (t : Component SI σ) (ts : List (Component SI σ)) (s : State SI σ) :
    for_each f i (t :: ts) s =
      if (f i t s).1 = none then for_each f (i + 1) ts (f i t s).2 else f i t s := by
  rcases h : f i t s with ⟨o, s1⟩
  cases o <;> simp [for_each, h]

theorem for_each_no_throw {SI σ : Type}
    (f : Nat → Component SI σ → State SI σ → Option Exception × State SI σ)
    (seq : List (Component SI σ))
    (hf : ∀ t ∈ seq, ∀ i s, (f i t s).1 = none) :
    ∀ i s, (for_each f i seq s).1 = none := by
  induction seq with
  | nil => intro i s; rfl
  | cons t ts ih =>
    intro i s
    rw [for_each_cons, if_pos (hf t (List.mem_cons_self _ _) i s)]
    exact ih (fun u hu => hf u (List.mem_cons_of_mem _ hu)) _ _

theorem for_each_trace_ext {SI σ : Type}
    (f : Nat → Component SI σ → State SI σ → Option Exception × State SI σ)
    (p : Event SI → Prop)
    (hf : ∀ i t s, ∃ ev, (f i t s).2.trace = s.trace ++ [ev] ∧ p ev)
    (seq : List (Component SI σ)) :
    ∀ i s, ∃ evs, (for_each f i seq s).2.trace = s.trace ++ evs ∧ ∀ ev ∈ evs, p ev := by
  induction seq with
  | nil => intro i s; exact ⟨[], by simp [for_each], by simp⟩
  | cons t ts ih =>
    intro i s
    obtain ⟨ev, hev, hp⟩ := hf i t s
    rw [for_each_cons]
    split
    · obtain ⟨evs, hevs, hps⟩ := ih (i + 1) (f i t s).2
      refine ⟨ev :: evs, ?_, ?_⟩
      · rw [hevs, hev]; simp
      · intro e he
        rcases List.mem_cons.mp he with h | h
        · exact h ▸ hp
        · exact hps e h
    · exact ⟨[ev], hev, by intro e he; rw [List.mem_singleton.mp he]; exact hp⟩

theorem for_each_trace_exact {SI σ : Type}
    (f : Nat → Component SI σ → State SI σ → Option Exception × State SI σ)
    (g : Nat → Event SI)
    (hg : ∀ i t s, (f i t s).2.trace = s.trace ++ [g i])
    (seq : List (Component SI σ))
    (hf : ∀ t ∈ seq, ∀ i s, (f i t s).1 = none) :
    ∀ i s, (for_each f i seq s).2.trace = s.trace ++ (List.range' i seq.length).map g := by
  induction seq with
  | nil => intro i s; simp [for_each]
  | cons t ts ih =>
    intro i s
    rw [for_each_cons, if_pos (hf t (List.mem_cons_self _ _) i s),
      ih (fun u hu => hf u (List.mem_cons_of_mem _ hu)), hg]
    simp [List.range'_succ]

theorem for_each_trace_map {SI σ β : Type}
    (f : Nat → Component SI σ → State SI σ → Option Exception × State SI σ)
    (m : Event SI → β) (g : Nat → β)
    (hg : ∀ i t s, (f i t s).2.trace.map m = s.trace.map m ++ [g i])
    (seq : List (Component SI σ))
    (hf : ∀ t ∈ seq, ∀ i s, (f i t s).1 = none) :
    ∀ i s, (for_each f i seq s).2.trace.map m =
      s.trace.map m ++ (List.range' i seq.length).map g := by
  induction seq with
  | nil => intro i s; simp [for_each]
  | cons t ts ih =>
    intro i s
    rw [for_each_cons, if_pos (hf t (List.mem_cons_self _ _) i s),
      ih (fun u hu => hf u (List.mem_cons_of_mem _ hu)), hg]
    simp [List.range'_succ]

theorem for_each_world_inv {SI σ : Type}
    (f : Nat → Component SI σ → State SI σ → Option Exception × State SI σ)
    (I : World SI σ → Prop)
    (seq : List (Component SI σ))
    (hf : ∀ t ∈ seq, ∀ i s, I s.world → I (f i t s).2.world) :
    ∀ i s, I s.world → I (for_each f i seq s).2.world := by
  induction seq with
  | nil => intro i s h; simpa [for_each] using h
  | cons t ts ih =>
    intro i s h
    have h1 := hf t (List.mem_cons_self _ _) i s h
    rw [for_each_cons]
    split
    · exact ih (fun u hu => hf u (List.mem_cons_of_mem _ hu)) _ _ h1
    · exact h1



/-! ## Lemmas on the phases -/

theorem setup_phase_no_throw {SI σ : Type} (seq : List (Component SI σ))
    (h : no_hook_throws seq) (s : State SI σ) : (setup_phase seq s).1 = none :=
  for_each_no_throw on_setup_t seq (fun t ht _ s => (h t ht s.world).1) 0 s

theorem error_phase_no_throw {SI σ : Type} (seq : List (Component SI σ))
    (h : no_hook_throws seq) (r : error_ref) (s : State SI σ) :
    (for_each (on_error_t r) 0 seq s).1 = none :=
  for_each_no_throw (on_error_t r) seq (fun t ht _ s => (h t ht s.world).2.2 r) 0 s

theorem success_phase_no_throw {SI σ : Type} (seq : List (Component SI σ))
    (h : no_hook_throws seq) (code : Int) (s : State SI σ) :
    (success_phase seq code s).1 = none := by
  unfold success_phase
  split
  · exact for_each_no_throw on_success_t seq (fun t ht _ s => (h t ht s.world).2.1) 0 _
  · rfl

theorem setup_phase_trace {SI σ : Type} (seq : List (Component SI σ))
    (h : no_hook_throws seq) (s : State SI σ) :
    (setup_phase seq s).2.trace = s.trace ++ (List.range seq.length).map Event.on_setup := by
  rw [List.range_eq_range']
  exact for_each_trace_exact on_setup_t Event.on_setup (fun _ _ _ => rfl) seq
    (fun t ht _ s => (h t ht s.world).1) 0 s

theorem error_phase_trace {SI σ : Type} (seq : List (Component SI σ))
    (h : no_hook_throws seq) (v : error_code) (s : State SI σ) :
    (for_each (on_error_t (error_ref.last_error v)) 0 seq s).2.trace =
      s.trace ++ (List.range seq.length).map (fun i => Event.on_error i v) := by
  rw [List.range_eq_range']
  exact for_each_trace_exact (on_error_t (error_ref.last_error v)) (fun i => Event.on_error i v)
    (fun _ _ _ => rfl) seq (fun t ht _ s => (h t ht s.world).2.2 _) 0 s

theorem success_phase_trace {SI σ : Type} (seq : List (Component SI σ))
    (h : no_hook_throws seq) (code : Int) (hc : code ≠ 0) (s : State SI σ) :
    (success_phase seq code s).2.trace =
      s.trace ++ (List.range seq.length).map Event.on_success := by
  unfold success_phase
  rw [if_pos hc, List.range_eq_range']
  exact for_each_trace_exact on_success_t Event.on_success (fun _ _ _ => rfl) seq
    (fun t ht _ s => (h t ht s.world).2.1) 0 _

theorem success_phase_zero {SI σ : Type} (seq : List (Component SI σ)) (s : State SI σ) :
    success_phase seq 0 s = (none, s) := by
  simp [success_phase]

/-- The value of `run()` when no hook throws, by the branch taken. -/
theorem run_no_throw {SI σ : Type} (P : Platform SI σ) (seq : List (Component SI σ))
    (w : World SI σ) (h : no_hook_throws seq) :
    run P seq w =
      if (after_setup seq w).world.exec.ec.toBool = true then
        (Outcome.returned child.default,
          (for_each (on_error_t error_ref.exec_ec) 0 seq (after_setup seq w)).2)
      else if native_result P seq w = 0 ∨ (after_success P seq w).world.exec.ec.toBool = true then
        ((match internal_throw (has_error_handler seq) (last_error P seq w) with
          | some e => Outcome.thrown e
          | none => Outcome.returned child.default),
          (for_each (on_error_t (error_ref.last_error (last_error P seq w))) 0 seq
            (after_success P seq w)).2)
      else (Outcome.returned (live_child P seq w), after_success P seq w) := by
  unfold run operator_call
  simp only [setup_phase_no_throw seq h, error_phase_no_throw seq h,
    success_phase_no_throw seq h]
  unfold last_error live_child after_success after_native native_result after_setup
  split_ifs <;> first | rfl | (split <;> rfl)


theorem tag_comp_on_setup {SI : Type} :
    (Event.tag ∘ (Event.on_setup : Nat → Event SI)) = Tag.setup :=
  rfl

theorem tag_comp_on_success {SI : Type} :
    (Event.tag ∘ (Event.on_success : Nat → Event SI)) = Tag.success :=
  rfl

theorem error_phase_tags {SI σ : Type} (seq : List (Component SI σ))
    (h : no_hook_throws seq) (r : error_ref) (s : State SI σ) :
    (for_each (on_error_t r) 0 seq s).2.trace.map Event.tag =
      s.trace.map Event.tag ++ (List.range seq.length).map Tag.error := by
  rw [List.range_eq_range']
  exact for_each_trace_map (on_error_t r) Event.tag Tag.error
    (fun _ _ _ => by simp [on_error_t, Event.tag]) seq (fun t ht _ s => (h t ht s.world).2.2 r) 0 s

theorem after_setup_trace {SI σ : Type} (seq : List (Component SI σ))
    (h : no_hook_throws seq) (w : World SI σ) :
    (after_setup seq w).trace = (List.range seq.length).map Event.on_setup := by
  unfold after_setup
  rw [setup_phase_trace seq h]
  rfl

theorem after_native_trace {SI σ : Type} (P : Platform SI σ) (seq : List (Component SI σ))
    (w : World SI σ) :
    (after_native P seq w).trace =
      (after_setup seq w).trace ++ [Event.create_process (native_args (after_setup seq w).world.exec)] :=
  rfl

theorem after_success_trace {SI σ : Type} (P : Platform SI σ) (seq : List (Component SI σ))
    (h : no_hook_throws seq) (w : World SI σ) :
    (after_success P seq w).trace =
      (after_native P seq w).trace ++
        if native_result P seq w = 0 then [] else (List.range seq.length).map Event.on_success := by
  unfold after_success
  by_cases hc : native_result P seq w = 0
  · rw [hc, success_phase_zero]; simp
  · rw [success_phase_trace seq h _ hc, if_neg hc]

/-- The tags of the trace of `run()` when no hook throws, by the branch taken. -/
theorem run_tags_no_throw {SI σ : Type} (P : Platform SI σ) (seq : List (Component SI σ))
    (w : World SI σ) (h : no_hook_throws seq) :
    (run P seq w).2.trace.map Event.tag =
      (List.range seq.length).map Tag.setup ++
      if (after_setup seq w).world.exec.ec.toBool = true then
        (List.range seq.length).map Tag.error
      else if native_result P seq w = 0 then
        Tag.native :: (List.range seq.length).map Tag.error
      else if (after_success P seq w).world.exec.ec.toBool = true then
        Tag.native :: ((List.range seq.length).map Tag.success ++
          (List.range seq.length).map Tag.error)
      else Tag.native :: (List.range seq.length).map Tag.success := by
  rw [run_no_throw P seq w h]
  by_cases h1 : (after_setup seq w).world.exec.ec.toBool = true
  · simp [h1, error_phase_tags seq h, after_setup_trace seq h, tag_comp_on_setup]
  · by_cases h2 : native_result P seq w = 0
    · simp [h1, h2, error_phase_tags seq h, after_success_trace P seq h, after_native_trace,
        after_setup_trace seq h, Event.tag, tag_comp_on_setup]
    · by_cases h3 : (after_success P seq w).world.exec.ec.toBool = true
      · simp [h1, h2, h3, error_phase_tags seq h, after_success_trace P seq h,
          after_native_trace, after_setup_trace seq h, Event.tag, tag_comp_on_setup,
          tag_comp_on_success]
      · simp [h1, h2, h3, after_success_trace P seq h,
          after_native_trace, after_setup_trace seq h, Event.tag, tag_comp_on_setup,
          tag_comp_on_success]


/-! ## The trace for arbitrary hooks -/

theorem setup_phase_trace_ext {SI σ : Type} (seq : List (Component SI σ)) (s : State SI σ) :
    ∃ evs, (setup_phase seq s).2.trace = s.trace ++ evs ∧
      ∀ ev ∈ evs, ∃ i, ev = Event.on_setup i :=
  for_each_trace_ext on_setup_t (fun ev => ∃ i, ev = Event.on_setup i)
    (fun i _ _ => ⟨Event.on_setup i, rfl, i, rfl⟩) seq 0 s

theorem error_phase_trace_ext {SI σ : Type} (seq : List (Component SI σ)) (r : error_ref)
    (s : State SI σ) :
    ∃ evs, (for_each (on_error_t r) 0 seq s).2.trace = s.trace ++ evs ∧
      ∀ ev ∈ evs, ∃ i v, ev = Event.on_error i v :=
  for_each_trace_ext (on_error_t r) (fun ev => ∃ i v, ev = Event.on_error i v)
    (fun i _ s => ⟨Event.on_error i (r.deref s.world), rfl, i, _, rfl⟩) seq 0 s

theorem success_phase_trace_ext {SI σ : Type} (seq : List (Component SI σ)) (code : Int)
    (s : State SI σ) :
    ∃ evs, (success_phase seq code s).2.trace = s.trace ++ evs ∧
      (∀ ev ∈ evs, ∃ i, ev = Event.on_success i) ∧ (code = 0 → evs = []) := by
  unfold success_phase
  by_cases hc : code = 0
  · exact ⟨[], by simp [hc], by simp, fun _ => rfl⟩
  · rw [if_pos hc]
    obtain ⟨evs, h1, h2⟩ := for_each_trace_ext on_success_t (fun ev => ∃ i, ev = Event.on_success i)
      (fun i _ _ => ⟨Event.on_success i, rfl, i, rfl⟩) seq 0
      ⟨{ s.world with exec := { s.world.exec with ec := s.world.exec.ec.clear } }, s.trace⟩
    exact ⟨evs, h1, h2, fun h0 => absurd h0 hc⟩

/-- The trace of `run()` for arbitrary hooks: the calls of the setup phase, then the native
call (none when the error slot is set after setup), then calls of `on_success` (none when
the native call was not made or returned zero), then calls of `on_error` (none when the
native call succeeded and the error slot is clear after the success hooks). -/
theorem run_trace {SI σ : Type} (P : Platform SI σ) (seq : List (Component SI σ))
    (w : World SI σ) :
    ∃ N S E, (run P seq w).2.trace = (after_setup seq w).trace ++ N ++ S ++ E ∧
      (∀ ev ∈ N, ∃ a, ev = Event.create_process a) ∧
      (∀ ev ∈ S, ∃ i, ev = Event.on_success i) ∧
      (∀ ev ∈ E, ∃ i v, ev = Event.on_error i v) ∧
      ((after_setup seq w).world.exec.ec.toBool = true → N = [] ∧ S = []) ∧
      ((after_setup seq w).world.exec.ec.toBool = false → native_result P seq w ≠ 0 →
        (after_success P seq w).world.exec.ec.toBool = false → E = []) := by
  have nil : ∀ (p : Event SI → Prop), ∀ ev ∈ ([] : List (Event SI)), p ev := by
    intro p ev hev; cases hev
  unfold run operator_call
  simp only []
  split
  · exact ⟨[], [], [], by simp [after_setup], nil _, nil _, nil _, fun _ => ⟨rfl, rfl⟩,
      fun _ _ _ => rfl⟩
  · by_cases h1 : (after_setup seq w).world.exec.ec.toBool = true
    · have h1' : (setup_phase seq ⟨w, []⟩).2.world.exec.ec.toBool = true := h1
      obtain ⟨E, hE, hE'⟩ := error_phase_trace_ext seq error_ref.exec_ec (after_setup seq w)
      refine ⟨[], [], E, ?_, nil _, nil _, hE', fun _ => ⟨rfl, rfl⟩, fun h0 => ?_⟩
      · rw [if_pos h1']
        split <;> simpa using hE
      · rw [h1] at h0; cases h0
    · have h1' : ¬ (setup_phase seq ⟨w, []⟩).2.world.exec.ec.toBool = true := h1
      rw [if_neg h1']
      obtain ⟨S, hS, hS', _⟩ := success_phase_trace_ext seq (native_result P seq w)
        (after_native P seq w)
      have hS2 : (after_success P seq w).trace =
          (after_setup seq w).trace ++
            [Event.create_process (native_args (after_setup seq w).world.exec)] ++ S := by
        rw [← after_native_trace]; exact hS
      have hN : ∀ ev ∈ [Event.create_process (native_args (after_setup seq w).world.exec)],
          ∃ a, ev = Event.create_process a := by
        intro ev hev
        exact ⟨_, List.mem_singleton.mp hev⟩
      split
      · exact ⟨_, S, [], by simpa using hS2, hN, hS', nil _, fun h0 => absurd h0 h1,
          fun _ _ _ => rfl⟩
      · by_cases h2 : native_result P seq w = 0 ∨
            (after_success P seq w).world.exec.ec.toBool = true
        · have h2' : (native_call P (setup_phase seq ⟨w, []⟩).2).1 = 0 ∨
              (success_phase seq (native_call P (setup_phase seq ⟨w, []⟩).2).1
                (native_call P (setup_phase seq ⟨w, []⟩).2).2).2.world.exec.ec.toBool = true := h2
          rw [if_pos h2']
          obtain ⟨E, hE, hE'⟩ := error_phase_trace_ext seq
            (error_ref.last_error (last_error P seq w)) (after_success P seq w)
          rw [hS2] at hE
          refine ⟨_, S, E, ?_, hN, hS', hE', fun h0 => absurd h0 h1, fun _ h3 h4 => ?_⟩
          · split
            · exact hE
            · split <;> exact hE
          · rcases h2 with h2 | h2
            · exact absurd h2 h3
            · rw [h2] at h4; cases h4
        · have h2' : ¬ ((native_call P (setup_phase seq ⟨w, []⟩).2).1 = 0 ∨
              (success_phase seq (native_call P (setup_phase seq ⟨w, []⟩).2).1
                (native_call P (setup_phase seq ⟨w, []⟩).2).2).2.world.exec.ec.toBool = true) := h2
          rw [if_neg h2']
          exact ⟨_, S, [], by simpa using hS2, hN, hS', nil _, fun h0 => absurd h0 h1,
            fun _ _ _ => rfl⟩


theorem filterMap_index_same (l : List Nat) :
    (l.map Tag.setup).filterMap Tag.setup_index = l ∧
    (l.map Tag.error).filterMap Tag.error_index = l := by
  induction l with
  | nil => simp
  | cons a l ih => simp [Tag.setup_index, Tag.error_index, ih.1, ih.2]

theorem filterMap_index_other (l : List Nat) :
    (l.map Tag.setup).filterMap Tag.error_index = [] ∧
    (l.map Tag.success).filterMap Tag.error_index = [] ∧
    (l.map Tag.error).filterMap Tag.setup_index = [] ∧
    (l.map Tag.success).filterMap Tag.setup_index = [] := by
  induction l with
  | nil => simp
  | cons a l ih => simp [Tag.setup_index, Tag.error_index, ih.1, ih.2.1, ih.2.2.1, ih.2.2.2]

theorem demo_no_hook_throws :
    no_hook_throws [Demo.noop] ∧ no_hook_throws [Demo.set_ec, Demo.noop] ∧
    no_hook_throws [Demo.error_handler] ∧ no_hook_throws [Demo.set_exe, Demo.fail_on_success] ∧
    no_hook_throws [Demo.set_exe, Demo.error_handler] := by
  refine ⟨?_, ?_, ?_, ?_, ?_⟩ <;>
  · intro t ht w
    simp only [List.mem_cons, List.mem_singleton, List.not_mem_nil, or_false] at ht
    rcases ht with rfl | rfl <;>
      simp [Demo.noop, Demo.set_ec, Demo.error_handler, Demo.set_exe, Demo.fail_on_success]

theorem demo_frame :
    no_hook_writes_ec [Demo.error_handler] ∧
    on_success_keeps_clear [Demo.set_exe, Demo.noop] ∧
    no_hook_writes_exit_status [Demo.set_exe, Demo.noop] := by
  refine ⟨?_, ?_, ?_⟩
  · intro t ht w
    rw [List.mem_singleton.mp ht]
    exact ⟨rfl, rfl, fun _ => rfl⟩
  · intro t ht w hw
    simp only [List.mem_cons, List.mem_singleton, List.not_mem_nil, or_false] at ht
    rcases ht with rfl | rfl <;> exact hw
  · intro t ht
    simp only [List.mem_cons, List.mem_singleton, List.not_mem_nil, or_false] at ht
    rcases ht with rfl | rfl <;>
      exact ⟨fun _ => ⟨rfl, rfl⟩, fun _ => ⟨rfl, rfl⟩, fun _ _ => ⟨rfl, rfl⟩⟩

/-- The two ways in which `run()` returns, for arbitrary hooks: with the empty handle after
a failed attempt, or with the handle built after the native call, in the state the success
hooks left. -/
theorem run_returned_cases {SI σ : Type} (P : Platform SI σ)
    (seq : List (Component SI σ)) (w : World SI σ) (c : child)
    (hret : (run P seq w).1 = Outcome.returned c) :
    (c = child.default ∧ failed_attempt P seq w) ∨
      (c = live_child P seq w ∧ ¬ failed_attempt P seq w ∧
        (run P seq w).2 = after_success P seq w) := by
  have hrun : run P seq w = operator_call P seq ⟨w, []⟩ := rfl
  unfold operator_call at hrun
  simp only [] at hrun
  unfold run operator_call at hret
  simp only [] at hret
  split at hret
  · cases hret
  · rename_i h0
    split at hret
    · rename_i h1
      split at hret
      · cases hret
      · exact Or.inl ⟨by cases hret; rfl, Or.inl h1⟩
    · rename_i h1
      split at hret
      · cases hret
      · rename_i h3
        split at hret
        · rename_i h2
          split at hret
          · cases hret
          · split at hret
            · cases hret
            · refine Or.inl ⟨by cases hret; rfl, ?_⟩
              rcases h2 with h2 | h2
              · exact Or.inr (Or.inl h2)
              · exact Or.inr (Or.inr h2)
        · rename_i h2
          refine Or.inr ⟨by cases hret; rfl, ?_, ?_⟩
          · intro hf
            rcases hf with hf | hf | hf
            · exact h1 hf
            · exact h2 (Or.inl hf)
            · exact h2 (Or.inr hf)
          · rw [hrun]
            simp only [h0, h3, if_neg h1, if_neg h2]
            rfl

/-! ## Properties of the executor -/

/-- C1: when no hook throws, `run()` calls `on_setup` on every component exactly once, in
sequence order, and these calls come before every other call, the native call included:
the trace is the `on_setup` calls at positions `0, 1, ..., n-1` followed by calls none of
which is an `on_setup`.  Nothing is assumed about the error slot, so a component that sets
it during `on_setup` does not keep a later `on_setup` from running. -/
theorem C1_on_setup_once_each_in_order {SI σ : Type} (P : Platform SI σ)
    (seq : List (Component SI σ)) (w : World SI σ) (h : no_hook_throws seq) :
    ∃ rest, (run P seq w).2.trace = (List.range seq.length).map Event.on_setup ++ rest ∧
      (∀ ev ∈ rest, ∀ i, ev ≠ Event.on_setup i) := by
  obtain ⟨N, S, E, ht, hN, hS, hE, _, _⟩ := run_trace P seq w
  refine ⟨N ++ S ++ E, ?_, ?_⟩
  · rw [ht, after_setup_trace seq h]; simp
  · intro ev hev i hi
    simp only [List.mem_append] at hev
    rcases hev with (hev | hev) | hev
    · obtain ⟨a, ha⟩ := hN ev hev; rw [ha] at hi; cases hi
    · obtain ⟨a, ha⟩ := hS ev hev; rw [ha] at hi; cases hi
    · obtain ⟨a, v, ha⟩ := hE ev hev; rw [ha] at hi; cases hi

/-- Witness of C1: a sequence whose first component sets the error slot during setup. -/
theorem C1_on_setup_once_each_in_order_witness :
    no_hook_throws [Demo.set_ec, Demo.noop] ∧
    ∃ rest, (run Demo.P [Demo.set_ec, Demo.noop] Demo.w0).2.trace =
        (List.range [Demo.set_ec, Demo.noop].length).map Event.on_setup ++ rest ∧
      (∀ ev ∈ rest, ∀ i, ev ≠ Event.on_setup i) :=
  ⟨demo_no_hook_throws.2.1,
    C1_on_setup_once_each_in_order Demo.P [Demo.set_ec, Demo.noop] Demo.w0
      demo_no_hook_throws.2.1⟩

/-- C2: when no hook throws, in every failed attempt (error slot set after setup, or native
call returned zero, or error slot set after the success hooks) `on_error` is called exactly
once on each component, in sequence order, the order in which `on_setup` was called. -/
theorem C2_on_error_once_each_in_order {SI σ : Type} (P : Platform SI σ)
    (seq : List (Component SI σ)) (w : World SI σ) (h : no_hook_throws seq)
    (hf : failed_attempt P seq w) :
    error_indices (run P seq w).2.trace = List.range seq.length ∧
    setup_indices (run P seq w).2.trace = List.range seq.length := by
  unfold error_indices setup_indices
  rw [run_tags_no_throw P seq w h]
  have hs := filterMap_index_same (List.range seq.length)
  have ho := filterMap_index_other (List.range seq.length)
  by_cases h1 : (after_setup seq w).world.exec.ec.toBool = true
  · simp [h1, List.filterMap_append, hs.1, hs.2, ho.1, ho.2.2.1]
  · by_cases h2 : native_result P seq w = 0
    · simp [h1, h2, List.filterMap_append, List.filterMap_cons, Tag.error_index,
        Tag.setup_index, hs.1, hs.2, ho.1, ho.2.2.1]
    · have h3 : (after_success P seq w).world.exec.ec.toBool = true := by
        rcases hf with hf | hf | hf
        · exact absurd hf h1
        · exact absurd hf h2
        · exact hf
      simp [h1, h2, h3, List.filterMap_append, List.filterMap_cons, Tag.error_index,
        Tag.setup_index, hs.1, hs.2, ho.1, ho.2.1, ho.2.2.1, ho.2.2.2]

/-- Witness of C2: the native call fails because no executable is set. -/
theorem C2_on_error_once_each_in_order_witness :
    no_hook_throws [Demo.noop] ∧ failed_attempt Demo.P [Demo.noop] Demo.w0 ∧
    error_indices (run Demo.P [Demo.noop] Demo.w0).2.trace = List.range [Demo.noop].length ∧
    setup_indices (run Demo.P [Demo.noop] Demo.w0).2.trace = List.range [Demo.noop].length :=
  ⟨demo_no_hook_throws.1, Or.inr (Or.inl (by decide)),
    C2_on_error_once_each_in_order Demo.P [Demo.noop] Demo.w0 demo_no_hook_throws.1
      (Or.inr (Or.inl (by decide)))⟩


/-- C3: whenever `run()` returns normally, whatever the hooks do, the handle returned is
the one built from the identifiers the native call produced exactly when the error slot was
clear after setup (so the native call was made), the native call reported success and the
error slot is clear after the success hooks; in every failed attempt the handle returned is
the empty handle `child()`. -/
theorem C3_failed_launch_returns_empty_handle {SI σ : Type} (P : Platform SI σ)
    (seq : List (Component SI σ)) (w : World SI σ) (c : child)
    (hret : (run P seq w).1 = Outcome.returned c) :
    (c = live_child P seq w ↔
      ((after_setup seq w).world.exec.ec.toBool = false ∧ native_result P seq w ≠ 0 ∧
        (after_success P seq w).world.exec.ec.toBool = false)) ∧
    (failed_attempt P seq w → c = child.default) := by
  have key := run_returned_cases P seq w c hret
  have hne : child.default ≠ live_child P seq w := by
    unfold live_child; intro h; cases h
  unfold failed_attempt at key
  unfold failed_attempt
  rcases key with ⟨hc, hf⟩ | ⟨hc, hf, _⟩
  · refine ⟨⟨fun h => absurd (hc ▸ h) hne, fun h => ?_⟩, fun _ => hc⟩
    rcases hf with hf | hf | hf
    · rw [h.1] at hf; cases hf
    · exact absurd hf h.2.1
    · rw [h.2.2] at hf; cases hf
  · refine ⟨⟨fun _ => ?_, fun _ => hc⟩, fun h => absurd h hf⟩
    simp only [not_or, Bool.not_eq_true] at hf
    exact hf

/-- Witness of C3: a run that returns the empty handle after a setup error. -/
theorem C3_failed_launch_returns_empty_handle_witness :
    (run Demo.P [Demo.set_ec, Demo.noop] Demo.w0).1 = Outcome.returned child.default ∧
    (child.default = live_child Demo.P [Demo.set_ec, Demo.noop] Demo.w0 ↔
      ((after_setup [Demo.set_ec, Demo.noop] Demo.w0).world.exec.ec.toBool = false ∧
        native_result Demo.P [Demo.set_ec, Demo.noop] Demo.w0 ≠ 0 ∧
        (after_success Demo.P [Demo.set_ec, Demo.noop] Demo.w0).world.exec.ec.toBool = false)) ∧
    (failed_attempt Demo.P [Demo.set_ec, Demo.noop] Demo.w0 → child.default = child.default) :=
  ⟨by decide,
    C3_failed_launch_returns_empty_handle Demo.P [Demo.set_ec, Demo.noop] Demo.w0
      child.default (by decide)⟩

/-- C4: without an error-handling component and with hooks that do not throw, when the
native call (made because the error slot is clear after setup) returns zero, `run()` ends
with `std::system_error(last_error)` where `last_error` is `get_last_error()` read right
after the call, and at that point the trace is complete: the setup calls, the native call
and one `on_error` call per component, in order, each with that same `last_error`. -/
theorem C4_launch_failure_throws_after_on_error {SI σ : Type} (P : Platform SI σ)
    (seq : List (Component SI σ)) (w : World SI σ)
    (hh : has_error_handler seq = false) (h : no_hook_throws seq)
    (h1 : (after_setup seq w).world.exec.ec.toBool = false)
    (h2 : native_result P seq w = 0) :
    (run P seq w).1 =
      Outcome.thrown (Exception.system_error (P.get_last_error (after_native P seq w).world.ext) none) ∧
    (run P seq w).2.trace =
      (List.range seq.length).map Event.on_setup ++
        [Event.create_process (native_args (after_setup seq w).world.exec)] ++
        (List.range seq.length).map
          (fun i => Event.on_error i (P.get_last_error (after_native P seq w).world.ext)) := by
  have hs : after_success P seq w = after_native P seq w := by
    unfold after_success; rw [h2, success_phase_zero]
  have hl : last_error P seq w = P.get_last_error (after_native P seq w).world.ext := by
    unfold last_error; rw [if_pos h2, hs]
  rw [run_no_throw P seq w h]
  simp only [h1, h2, hh, hl, hs, internal_throw, true_or, if_true, Bool.false_eq_true,
    if_false, error_phase_trace seq h, after_native_trace, after_setup_trace seq h]
  exact ⟨trivial, trivial⟩

/-- Witness of C4: no executable is set, so the native call fails with OS error 2. -/
theorem C4_launch_failure_throws_after_on_error_witness :
    has_error_handler [Demo.noop] = false ∧ no_hook_throws [Demo.noop] ∧
    (after_setup [Demo.noop] Demo.w0).world.exec.ec.toBool = false ∧
    native_result Demo.P [Demo.noop] Demo.w0 = 0 ∧
    (run Demo.P [Demo.noop] Demo.w0).1 =
      Outcome.thrown (Exception.system_error
        (Demo.P.get_last_error (after_native Demo.P [Demo.noop] Demo.w0).world.ext) none) ∧
    (run Demo.P [Demo.noop] Demo.w0).2.trace =
      (List.range [Demo.noop].length).map Event.on_setup ++
        [Event.create_process (native_args (after_setup [Demo.noop] Demo.w0).world.exec)] ++
        (List.range [Demo.noop].length).map
          (fun i => Event.on_error i
            (Demo.P.get_last_error (after_native Demo.P [Demo.noop] Demo.w0).world.ext)) :=
  ⟨by decide, demo_no_hook_throws.1, by decide, by decide,
    C4_launch_failure_throws_after_on_error Demo.P [Demo.noop] Demo.w0 (by decide)
      demo_no_hook_throws.1 (by decide) (by decide)⟩

/-- C5: the code at the failing input.  Without an error-handling component, a component
writes the error slot during `on_setup`; `run()` calls `on_error` on every component and
then returns the empty handle: no exception leaves `run()`. -/
theorem C5_setup_failure_returns_empty_handle :
    has_error_handler [Demo.set_ec, Demo.noop] = false ∧
    (after_setup [Demo.set_ec, Demo.noop] Demo.w0).world.exec.ec.toBool = true ∧
    (run Demo.P [Demo.set_ec, Demo.noop] Demo.w0).1 = Outcome.returned child.default ∧
    (run Demo.P [Demo.set_ec, Demo.noop] Demo.w0).2.trace =
      [Event.on_setup 0, Event.on_setup 1,
        Event.on_error 0 ⟨5, error_category.generic_category⟩,
        Event.on_error 1 ⟨5, error_category.generic_category⟩] := by
  decide

/-- C6: with an error-handling component in the sequence and hooks that do not throw,
`run()` never throws, and in every failed attempt (error slot set after setup, native call
returned zero, or error slot set after the success hooks) it returns the empty handle. -/
theorem C6_recoverable_policy_never_throws {SI σ : Type} (P : Platform SI σ)
    (seq : List (Component SI σ)) (w : World SI σ)
    (hh : has_error_handler seq = true) (h : no_hook_throws seq) :
    (∃ c, (run P seq w).1 = Outcome.returned c) ∧
    (failed_attempt P seq w → (run P seq w).1 = Outcome.returned child.default) := by
  have hr := run_no_throw P seq w h
  by_cases h1 : (after_setup seq w).world.exec.ec.toBool = true
  · rw [if_pos h1] at hr
    rw [hr]
    exact ⟨⟨_, rfl⟩, fun _ => rfl⟩
  · rw [if_neg h1] at hr
    by_cases h2 : native_result P seq w = 0 ∨ (after_success P seq w).world.exec.ec.toBool = true
    · rw [if_pos h2] at hr
      simp only [hh, internal_throw, if_true] at hr
      rw [hr]
      exact ⟨⟨_, rfl⟩, fun _ => rfl⟩
    · rw [if_neg h2] at hr
      rw [hr]
      refine ⟨⟨_, rfl⟩, fun hf => ?_⟩
      rcases hf with hf | hf | hf
      · exact absurd hf h1
      · exact absurd (Or.inl hf) h2
      · exact absurd (Or.inr hf) h2

/-- Witness of C6: an error handler alone, the native call fails. -/
theorem C6_recoverable_policy_never_throws_witness :
    has_error_handler [Demo.error_handler] = true ∧ no_hook_throws [Demo.error_handler] ∧
    (∃ c, (run Demo.P [Demo.error_handler] Demo.w0).1 = Outcome.returned c) ∧
    (failed_attempt Demo.P [Demo.error_handler] Demo.w0 →
      (run Demo.P [Demo.error_handler] Demo.w0).1 = Outcome.returned child.default) :=
  ⟨by decide, demo_no_hook_throws.2.2.1,
    C6_recoverable_policy_never_throws Demo.P [Demo.error_handler] Demo.w0 (by decide)
      demo_no_hook_throws.2.2.1⟩

/-- C7, refuted as stated: with an error handler whose hooks are empty, the native call
fails with OS error 2, `on_error` is passed that error and `run()` returns the empty
handle, but the error slot of the executor is clear afterwards. -/
theorem C7_counterexample :
    has_error_handler [Demo.error_handler] = true ∧
    no_hook_writes_ec [Demo.error_handler] ∧
    native_result Demo.P [Demo.error_handler] Demo.w0 = 0 ∧
    (run Demo.P [Demo.error_handler] Demo.w0).1 = Outcome.returned child.default ∧
    error_indices (run Demo.P [Demo.error_handler] Demo.w0).2.trace = [0] ∧
    (∀ ev ∈ (run Demo.P [Demo.error_handler] Demo.w0).2.trace, ∀ i v,
      ev = Event.on_error i v → v = ⟨2, error_category.system_category⟩) ∧
    (run Demo.P [Demo.error_handler] Demo.w0).2.world.exec.ec.toBool = false ∧
    (run Demo.P [Demo.error_handler] Demo.w0).2.world.exec.ec ≠
      ⟨2, error_category.system_category⟩ := by
  refine ⟨by decide, demo_frame.1, by decide, by decide, by decide, ?_, by decide, by decide⟩
  intro ev hev i v hv
  have ht : (run Demo.P [Demo.error_handler] Demo.w0).2.trace =
      [Event.on_setup 0, Event.create_process (native_args (executor.init Demo.P 0)),
        Event.on_error 0 ⟨2, error_category.system_category⟩] := by decide
  rw [ht] at hev
  simp only [List.mem_cons, List.mem_singleton, List.not_mem_nil, or_false] at hev
  rcases hev with rfl | rfl | rfl
  · cases hv
  · cases hv
  · cases hv; rfl


/-- C7, amended: with an error-handling component and hooks that neither throw nor write
the error slot, when the native call returns zero `run()` returns
the empty handle and passes `get_last_error()` to every `on_error` hook, but it does not
store that error: the error slot is what it was after setup, that is, clear. -/
theorem C7_launch_failure_error_passed_not_stored {SI σ : Type} (P : Platform SI σ)
    (seq : List (Component SI σ)) (w : World SI σ)
    (hh : has_error_handler seq = true) (h : no_hook_throws seq)
    (hk : no_hook_writes_ec seq)
    (h1 : (after_setup seq w).world.exec.ec.toBool = false)
    (h2 : native_result P seq w = 0) :
    (run P seq w).1 = Outcome.returned child.default ∧
    (run P seq w).2.trace =
      (List.range seq.length).map Event.on_setup ++
        [Event.create_process (native_args (after_setup seq w).world.exec)] ++
        (List.range seq.length).map
          (fun i => Event.on_error i (P.get_last_error (after_native P seq w).world.ext)) ∧
    (run P seq w).2.world.exec.ec = (after_setup seq w).world.exec.ec ∧
    (run P seq w).2.world.exec.ec.toBool = false := by
  have hs : after_success P seq w = after_native P seq w := by
    unfold after_success; rw [h2, success_phase_zero]
  have hl : last_error P seq w = P.get_last_error (after_native P seq w).world.ext := by
    unfold last_error; rw [if_pos h2, hs]
  have hec : (for_each (on_error_t (error_ref.last_error (last_error P seq w))) 0 seq
      (after_native P seq w)).2.world.exec.ec = (after_setup seq w).world.exec.ec :=
    for_each_world_inv _ (fun u => u.exec.ec = (after_setup seq w).world.exec.ec) seq
      (fun t ht _ s hs => ((hk t ht s.world).2.2 _).trans hs) 0 (after_native P seq w) rfl
  have hr := run_no_throw P seq w h
  rw [if_neg (by rw [h1]; decide), if_pos (Or.inl h2)] at hr
  simp only [hh, internal_throw, if_true, hs] at hr
  rw [hr]
  refine ⟨rfl, ?_, hec, ?_⟩
  · simp only [hl, error_phase_trace seq h, after_native_trace, after_setup_trace seq h]
  · show (for_each (on_error_t (error_ref.last_error (last_error P seq w))) 0 seq
      (after_native P seq w)).2.world.exec.ec.toBool = false
    rw [hec]; exact h1

/-- Witness of C7 (amended): an error handler alone, the native call fails. -/
theorem C7_launch_failure_error_passed_not_stored_witness :
    has_error_handler [Demo.error_handler] = true ∧ no_hook_throws [Demo.error_handler] ∧
    no_hook_writes_ec [Demo.error_handler] ∧
    (after_setup [Demo.error_handler] Demo.w0).world.exec.ec.toBool = false ∧
    native_result Demo.P [Demo.error_handler] Demo.w0 = 0 ∧
    (run Demo.P [Demo.error_handler] Demo.w0).1 = Outcome.returned child.default ∧
    (run Demo.P [Demo.error_handler] Demo.w0).2.trace =
      (List.range [Demo.error_handler].length).map Event.on_setup ++
        [Event.create_process (native_args (after_setup [Demo.error_handler] Demo.w0).world.exec)] ++
        (List.range [Demo.error_handler].length).map
          (fun i => Event.on_error i
            (Demo.P.get_last_error (after_native Demo.P [Demo.error_handler] Demo.w0).world.ext)) ∧
    (run Demo.P [Demo.error_handler] Demo.w0).2.world.exec.ec =
      (after_setup [Demo.error_handler] Demo.w0).world.exec.ec ∧
    (run Demo.P [Demo.error_handler] Demo.w0).2.world.exec.ec.toBool = false :=
  ⟨by decide, demo_no_hook_throws.2.2.1, demo_frame.1, by decide, by decide,
    C7_launch_failure_error_passed_not_stored Demo.P [Demo.error_handler] Demo.w0 (by decide)
      demo_no_hook_throws.2.2.1 demo_frame.1 (by decide) (by decide)⟩

/-- C8: whatever the hooks do, if the error slot is set after the setup phase then the
trace of `run()` contains no call of `on_success` and no native call. -/
theorem C8_setup_error_no_success_no_native {SI σ : Type} (P : Platform SI σ)
    (seq : List (Component SI σ)) (w : World SI σ)
    (h1 : (after_setup seq w).world.exec.ec.toBool = true) :
    ∀ ev ∈ (run P seq w).2.trace,
      (∀ i, ev ≠ Event.on_success i) ∧ (∀ a, ev ≠ Event.create_process a) := by
  obtain ⟨N, S, E, ht, _, _, hE, hNS, _⟩ := run_trace P seq w
  obtain ⟨U, hU, hU'⟩ := setup_phase_trace_ext seq (⟨w, []⟩ : State SI σ)
  have hU2 : (after_setup seq w).trace = U := by simpa [after_setup] using hU
  rw [(hNS h1).1, (hNS h1).2, hU2] at ht
  intro ev hev
  rw [ht] at hev
  simp only [List.append_nil, List.mem_append] at hev
  rcases hev with hev | hev
  · obtain ⟨i, hi⟩ := hU' ev hev
    rw [hi]
    exact ⟨fun _ hc => (by cases hc), fun _ hc => (by cases hc)⟩
  · obtain ⟨i, v, hi⟩ := hE ev hev
    rw [hi]
    exact ⟨fun _ hc => (by cases hc), fun _ hc => (by cases hc)⟩

/-- Witness of C8: the first component sets the error slot during setup. -/
theorem C8_setup_error_no_success_no_native_witness :
    (after_setup [Demo.set_ec, Demo.noop] Demo.w0).world.exec.ec.toBool = true ∧
    ∀ ev ∈ (run Demo.P [Demo.set_ec, Demo.noop] Demo.w0).2.trace,
      (∀ i, ev ≠ Event.on_success i) ∧ (∀ a, ev ≠ Event.create_process a) :=
  ⟨by decide,
    C8_setup_error_no_success_no_native Demo.P [Demo.set_ec, Demo.noop] Demo.w0 (by decide)⟩

/-- C9, refuted as stated: the error slot is clear after setup and the native call
succeeds, but an `on_success` hook sets the error slot and `on_error` is then called on
every component. -/
theorem C9_counterexample :
    (after_setup [Demo.set_exe, Demo.fail_on_success] Demo.w0).world.exec.ec.toBool = false ∧
    native_result Demo.P [Demo.set_exe, Demo.fail_on_success] Demo.w0 ≠ 0 ∧
    Event.on_error 0 ⟨9, error_category.generic_category⟩ ∈
      (run Demo.P [Demo.set_exe, Demo.fail_on_success] Demo.w0).2.trace ∧
    error_indices (run Demo.P [Demo.set_exe, Demo.fail_on_success] Demo.w0).2.trace = [0, 1] := by
  decide

/-- C9, amended: whatever the hooks do, if the error slot is clear after setup, the native
call reports success and the error slot is clear after the success hooks, then the trace of
`run()` contains no call of `on_error`. -/
theorem C9_no_on_error_after_clean_success {SI σ : Type} (P : Platform SI σ)
    (seq : List (Component SI σ)) (w : World SI σ)
    (h1 : (after_setup seq w).world.exec.ec.toBool = false)
    (h2 : native_result P seq w ≠ 0)
    (h3 : (after_success P seq w).world.exec.ec.toBool = false) :
    ∀ ev ∈ (run P seq w).2.trace, ∀ i v, ev ≠ Event.on_error i v := by
  obtain ⟨N, S, E, ht, hN, hS, _, _, hE⟩ := run_trace P seq w
  obtain ⟨U, hU, hU'⟩ := setup_phase_trace_ext seq (⟨w, []⟩ : State SI σ)
  have hU2 : (after_setup seq w).trace = U := by simpa [after_setup] using hU
  rw [hE h1 h2 h3, hU2] at ht
  intro ev hev i v hc
  rw [ht] at hev
  simp only [List.append_nil, List.mem_append] at hev
  rcases hev with (hev | hev) | hev
  · obtain ⟨j, hj⟩ := hU' ev hev
    rw [hj] at hc; cases hc
  · obtain ⟨a, ha⟩ := hN ev hev
    rw [ha] at hc; cases hc
  · obtain ⟨j, hj⟩ := hS ev hev
    rw [hj] at hc; cases hc

/-- Witness of C9 (amended): a successful launch. -/
theorem C9_no_on_error_after_clean_success_witness :
    (after_setup [Demo.set_exe, Demo.noop] Demo.w0).world.exec.ec.toBool = false ∧
    native_result Demo.P [Demo.set_exe, Demo.noop] Demo.w0 ≠ 0 ∧
    (after_success Demo.P [Demo.set_exe, Demo.noop] Demo.w0).world.exec.ec.toBool = false ∧
    ∀ ev ∈ (run Demo.P [Demo.set_exe, Demo.noop] Demo.w0).2.trace,
      ∀ i v, ev ≠ Event.on_error i v :=
  ⟨by decide, by decide, by decide,
    C9_no_on_error_after_clean_success Demo.P [Demo.set_exe, Demo.noop] Demo.w0
      (by decide) (by decide) (by decide)⟩

/-- C10: take a freshly constructed executor whose exit-status cell is at address `cell`.
If `run()` returns after a native call that reported success, no `on_success` hook sets the
error slot and no hook writes the exit-status cell, then the handle returned holds exactly
the process identifiers the native call produced together with the executor's exit-status
cell, and that cell still reads `still_active`: the executor never writes it. -/
theorem C10_live_handle_reads_still_active {SI σ : Type} (P : Platform SI σ)
    (seq : List (Component SI σ)) (cell : Nat) (atomics : Nat → Int) (ext : σ) (c : child)
    (hret : (run P seq (make_executor P cell atomics ext)).1 = Outcome.returned c)
    (h1 : (after_setup seq (make_executor P cell atomics ext)).world.exec.ec.toBool = false)
    (h2 : native_result P seq (make_executor P cell atomics ext) ≠ 0)
    (h3 : on_success_keeps_clear seq)
    (h4 : no_hook_writes_exit_status seq) :
    c = child.mk
        ⟨(P.create_process
            (native_args (after_setup seq (make_executor P cell atomics ext)).world.exec)
            (after_setup seq (make_executor P cell atomics ext)).world.exec.proc_info
            (after_setup seq (make_executor P cell atomics ext)).world.ext).2.1⟩ cell ∧
    (run P seq (make_executor P cell atomics ext)).2.world.exec.exit_status = cell ∧
    (run P seq (make_executor P cell atomics ext)).2.world.atomics cell = P.still_active := by
  let J : World SI σ → Prop := fun u => u.exec.exit_status = cell ∧ u.atomics cell = P.still_active
  have hJ : ∀ hk : Hook SI σ, keeps_exit_status hk → ∀ u, J u → J (hk u).2 := by
    intro hk hkeep u hu
    have h := hkeep u
    rw [hu.1] at h
    exact ⟨h.1, h.2.trans hu.2⟩
  have j0 : J (make_executor P cell atomics ext) := ⟨rfl, by simp [make_executor]⟩
  have j1 : J (after_setup seq (make_executor P cell atomics ext)).world :=
    for_each_world_inv on_setup_t J seq (fun t ht _ s hs => hJ _ (h4 t ht).1 s.world hs) 0 _ j0
  have j2 : J (after_native P seq (make_executor P cell atomics ext)).world := j1
  have hsucc : after_success P seq (make_executor P cell atomics ext) =
      (for_each on_success_t 0 seq
        ⟨{ (after_native P seq (make_executor P cell atomics ext)).world with
            exec := { (after_native P seq (make_executor P cell atomics ext)).world.exec with
              ec := (after_native P seq (make_executor P cell atomics ext)).world.exec.ec.clear } },
          (after_native P seq (make_executor P cell atomics ext)).trace⟩).2 := by
    unfold after_success success_phase
    rw [if_pos h2]
  have j3 : J (after_success P seq (make_executor P cell atomics ext)).world := by
    rw [hsucc]
    exact for_each_world_inv on_success_t J seq
      (fun t ht _ s hs => hJ _ (h4 t ht).2.1 s.world hs) 0 _ j2
  have hclear : (after_success P seq (make_executor P cell atomics ext)).world.exec.ec.toBool
      = false := by
    rw [hsucc]
    exact for_each_world_inv on_success_t (fun u => u.exec.ec.toBool = false) seq
      (fun t ht _ s hs => h3 t ht s.world hs) 0 _ rfl
  rcases run_returned_cases P seq _ c hret with ⟨_, hf⟩ | ⟨hc, _, hrun⟩
  · rcases hf with hf | hf | hf
    · rw [h1] at hf; cases hf
    · exact absurd hf h2
    · rw [hclear] at hf; cases hf
  · rw [hrun]
    refine ⟨?_, j3.1, j3.2⟩
    rw [hc]
    unfold live_child
    rw [j2.1]
    rfl

/-- Witness of C10: a component sets the executable and the launch succeeds. -/
theorem C10_live_handle_reads_still_active_witness :
    (run Demo.P [Demo.set_exe, Demo.noop] (make_executor Demo.P 0 (fun _ => 0) 0)).1 =
      Outcome.returned (child.mk ⟨⟨100, 101, 7, 8⟩⟩ 0) ∧
    (after_setup [Demo.set_exe, Demo.noop]
      (make_executor Demo.P 0 (fun _ => 0) 0)).world.exec.ec.toBool = false ∧
    native_result Demo.P [Demo.set_exe, Demo.noop] (make_executor Demo.P 0 (fun _ => 0) 0) ≠ 0 ∧
    on_success_keeps_clear [Demo.set_exe, Demo.noop] ∧
    no_hook_writes_exit_status [Demo.set_exe, Demo.noop] ∧
    child.mk ⟨⟨100, 101, 7, 8⟩⟩ 0 = child.mk
        ⟨(Demo.P.create_process
            (native_args (after_setup [Demo.set_exe, Demo.noop]
              (make_executor Demo.P 0 (fun _ => 0) 0)).world.exec)
            (after_setup [Demo.set_exe, Demo.noop]
              (make_executor Demo.P 0 (fun _ => 0) 0)).world.exec.proc_info
            (after_setup [Demo.set_exe, Demo.noop]
              (make_executor Demo.P 0 (fun _ => 0) 0)).world.ext).2.1⟩ 0 ∧
    (run Demo.P [Demo.set_exe, Demo.noop]
      (make_executor Demo.P 0 (fun _ => 0) 0)).2.world.exec.exit_status = 0 ∧
    (run Demo.P [Demo.set_exe, Demo.noop]
      (make_executor Demo.P 0 (fun _ => 0) 0)).2.world.atomics 0 = Demo.P.still_active :=
  ⟨by decide, by decide, by decide, demo_frame.2.1, demo_frame.2.2,
    C10_live_handle_reads_still_active Demo.P [Demo.set_exe, Demo.noop] 0 (fun _ => 0) 0
      (child.mk ⟨⟨100, 101, 7, 8⟩⟩ 0) (by decide) (by decide) (by decide)
      demo_frame.2.1 demo_frame.2.2⟩

/-! ## Further lemmas -/

theorem native_calls_eq_nil {SI : Type} (l : List (Event SI))
    (h : ∀ ev ∈ l, ∀ a, ev ≠ Event.create_process a) : native_calls l = [] := by
  induction l with
  | nil => rfl
  | cons ev l ih =>
    have hl := ih (fun x hx => h x (List.mem_cons_of_mem _ hx))
    have hev := h ev (List.mem_cons_self _ _)
    unfold native_calls at hl ⊢
    cases ev with
    | create_process a => exact absurd rfl (hev a)
    | on_setup i => simpa [List.filterMap_cons] using hl
    | on_error i v => simpa [List.filterMap_cons] using hl
    | on_success i => simpa [List.filterMap_cons] using hl

theorem native_calls_append {SI : Type} (l1 l2 : List (Event SI)) :
    native_calls (l1 ++ l2) = native_calls l1 ++ native_calls l2 := by
  unfold native_calls
  exact List.filterMap_append _ _ _

theorem native_calls_map_hook {SI : Type} (l : List Nat) (v : error_code) :
    native_calls (l.map (Event.on_setup : Nat → Event SI)) = [] ∧
    native_calls (l.map (Event.on_success : Nat → Event SI)) = [] ∧
    native_calls (l.map (fun i => (Event.on_error i v : Event SI))) = [] := by
  refine ⟨?_, ?_, ?_⟩ <;>
  · apply native_calls_eq_nil
    intro ev hev a hc
    obtain ⟨i, _, hi⟩ := List.mem_map.mp hev
    rw [hc] at hi
    cases hi

/-- The native calls made by `run()` when no hook throws: none when the error slot is set
after setup, else the one call with the arguments read off the executor after setup. -/
theorem run_native_calls {SI σ : Type} (P : Platform SI σ) (seq : List (Component SI σ))
    (w : World SI σ) (h : no_hook_throws seq) :
    native_calls (run P seq w).2.trace =
      if (after_setup seq w).world.exec.ec.toBool = true then []
      else [native_args (after_setup seq w).world.exec] := by
  have hr := run_no_throw P seq w h
  have hsetup : native_calls (after_setup seq w).trace = [] := by
    rw [after_setup_trace seq h]
    exact (native_calls_map_hook _ ⟨0, error_category.system_category⟩).1
  have hsucc : native_calls (after_success P seq w).trace =
      [native_args (after_setup seq w).world.exec] := by
    rw [after_success_trace P seq h, after_native_trace, native_calls_append,
      native_calls_append, hsetup]
    have h0 : native_calls (if native_result P seq w = 0 then ([] : List (Event SI))
        else (List.range seq.length).map Event.on_success) = [] := by
      split
      · rfl
      · exact (native_calls_map_hook _ ⟨0, error_category.system_category⟩).2.1
    rw [h0]
    rfl
  by_cases h1 : (after_setup seq w).world.exec.ec.toBool = true
  · rw [if_pos h1] at hr
    rw [hr, if_pos h1]
    obtain ⟨E, hE, hE'⟩ := error_phase_trace_ext seq error_ref.exec_ec (after_setup seq w)
    show native_calls (for_each (on_error_t error_ref.exec_ec) 0 seq (after_setup seq w)).2.trace = []
    rw [hE, native_calls_append, hsetup]
    apply native_calls_eq_nil
    intro ev hev a hc
    obtain ⟨i, v, hi⟩ := hE' ev hev
    rw [hc] at hi
    cases hi
  · rw [if_neg h1] at hr
    rw [if_neg h1]
    by_cases h2 : native_result P seq w = 0 ∨ (after_success P seq w).world.exec.ec.toBool = true
    · rw [if_pos h2] at hr
      rw [hr]
      show native_calls (for_each (on_error_t (error_ref.last_error (last_error P seq w))) 0 seq
        (after_success P seq w)).2.trace = _
      rw [error_phase_trace seq h, native_calls_append, hsucc,
        (native_calls_map_hook _ _).2.2]
      rfl
    · rw [if_neg h2] at hr
      rw [hr]
      exact hsucc

theorem for_each_append {SI σ : Type}
    (f : Nat → Component SI σ → State SI σ → Option Exception × State SI σ)
    (xs ys : List (Component SI σ)) :
    ∀ i s, for_each f i (xs ++ ys) s =
      if (for_each f i xs s).1 = none then for_each f (i + xs.length) ys (for_each f i xs s).2
      else for_each f i xs s := by
  induction xs with
  | nil => intro i s; simp [for_each]
  | cons x xs ih =>
    intro i s
    rw [List.cons_append, for_each_cons, for_each_cons]
    by_cases hx : (f i x s).1 = none
    · rw [if_pos hx, if_pos hx, ih]
      simp [Nat.add_assoc, Nat.add_comm 1]
    · rw [if_neg hx, if_neg hx, if_neg hx]

/-- A call that throws ends `for_each`: the components after it are not visited. -/
theorem for_each_throw {SI σ : Type}
    (f : Nat → Component SI σ → State SI σ → Option Exception × State SI σ)
    (pre : List (Component SI σ)) (t : Component SI σ) (post : List (Component SI σ))
    (s : State SI σ) (e : Exception) (h : throws_at f pre t s e) :
    for_each f 0 (pre ++ t :: post) s = (some e, state_at_throw f pre t s) := by
  obtain ⟨h1, h2⟩ := h
  rw [for_each_append, if_pos h1, for_each_cons, Nat.zero_add, if_neg (by rw [h2]; simp)]
  unfold state_at_throw
  rw [← h2]

theorem for_each_tags_of_ok {SI σ : Type}
    (f : Nat → Component SI σ → State SI σ → Option Exception × State SI σ)
    (g : Nat → Tag)
    (hg : ∀ i t s, (f i t s).2.trace.map Event.tag = s.trace.map Event.tag ++ [g i])
    (seq : List (Component SI σ)) :
    ∀ i s, (for_each f i seq s).1 = none →
      (for_each f i seq s).2.trace.map Event.tag =
        s.trace.map Event.tag ++ (List.range' i seq.length).map g := by
  induction seq with
  | nil => intro i s _; simp [for_each]
  | cons t ts ih =>
    intro i s hok
    rw [for_each_cons] at hok ⊢
    by_cases ht : (f i t s).1 = none
    · rw [if_pos ht] at hok ⊢
      rw [ih _ _ hok, hg]
      simp [List.range'_succ]
    · rw [if_neg ht] at hok
      exact absurd hok ht

/-- The tags of the trace at a throwing call: the earlier calls of the loop and that call. -/
theorem state_at_throw_tags {SI σ : Type}
    (f : Nat → Component SI σ → State SI σ → Option Exception × State SI σ)
    (g : Nat → Tag)
    (hg : ∀ i t s, (f i t s).2.trace.map Event.tag = s.trace.map Event.tag ++ [g i])
    (pre : List (Component SI σ)) (t : Component SI σ) (s : State SI σ) (e : Exception)
    (h : throws_at f pre t s e) :
    (state_at_throw f pre t s).trace.map Event.tag =
      s.trace.map Event.tag ++ (List.range (pre.length + 1)).map g := by
  unfold state_at_throw
  rw [hg, for_each_tags_of_ok f g hg pre 0 s h.1, List.range_succ, List.range_eq_range']
  simp

theorem hook_tags {SI σ : Type} :
    (∀ i (t : Component SI σ) s,
      (on_setup_t i t s).2.trace.map Event.tag = s.trace.map Event.tag ++ [Tag.setup i]) ∧
    (∀ i (t : Component SI σ) s,
      (on_success_t i t s).2.trace.map Event.tag = s.trace.map Event.tag ++ [Tag.success i]) ∧
    (∀ r i (t : Component SI σ) s,
      (on_error_t r i t s).2.trace.map Event.tag = s.trace.map Event.tag ++ [Tag.error i]) :=
  ⟨fun _ _ _ => by simp [on_setup_t, Event.tag],
    fun _ _ _ => by simp [on_success_t, Event.tag],
    fun _ _ _ _ => by simp [on_error_t, Event.tag]⟩

/-- After a setup phase that left the error slot clear, `run()` is the native call followed
by the statements that classify the outcome. -/
theorem run_eq_classify {SI σ : Type} (P : Platform SI σ) (seq : List (Component SI σ))
    (w : World SI σ) (h0 : (setup_phase seq ⟨w, []⟩).1 = none)
    (h1 : (after_setup seq w).world.exec.ec.toBool = false) :
    run P seq w = classify_outcome P seq (native_result P seq w) (after_native P seq w) := by
  have h1' : ¬ (setup_phase seq ⟨w, []⟩).2.world.exec.ec.toBool = true := by
    intro hc
    have : (after_setup seq w).world.exec.ec.toBool = true := hc
    rw [h1] at this
    cases this
  unfold run operator_call
  simp only [h0, if_neg h1']
  rfl

/-- The failed attempts end with one `on_error` call per component when no hook throws. -/
theorem failed_error_indices {SI σ : Type} (P : Platform SI σ)
    (seq : List (Component SI σ)) (w : World SI σ) (h : no_hook_throws seq)
    (hf : failed_attempt P seq w) :
    error_indices (run P seq w).2.trace = List.range seq.length := by
  unfold error_indices
  rw [run_tags_no_throw P seq w h]
  have hs := filterMap_index_same (List.range seq.length)
  have ho := filterMap_index_other (List.range seq.length)
  by_cases h1 : (after_setup seq w).world.exec.ec.toBool = true
  · simp [h1, List.filterMap_append, hs.2, ho.1]
  · by_cases h2 : native_result P seq w = 0
    · simp [h1, h2, List.filterMap_append, List.filterMap_cons, Tag.error_index, hs.2, ho.1]
    · have h3 : (after_success P seq w).world.exec.ec.toBool = true := by
        rcases hf with hf | hf | hf
        · exact absurd hf h1
        · exact absurd hf h2
        · exact hf
      simp [h1, h2, h3, List.filterMap_append, List.filterMap_cons, Tag.error_index,
        hs.2, ho.1, ho.2.1]

theorem run_of_setup_throw {SI σ : Type} (P : Platform SI σ) (seq : List (Component SI σ))
    (w : World SI σ) (e : Exception) (h : (setup_phase seq ⟨w, []⟩).1 = some e) :
    run P seq w = (Outcome.thrown e, (setup_phase seq ⟨w, []⟩).2) := by
  unfold run operator_call
  simp only [h]

theorem run_of_setup_error_throw {SI σ : Type} (P : Platform SI σ)
    (seq : List (Component SI σ)) (w : World SI σ) (e : Exception)
    (h0 : (setup_phase seq ⟨w, []⟩).1 = none)
    (h1 : (after_setup seq w).world.exec.ec.toBool = true)
    (h : (for_each (on_error_t error_ref.exec_ec) 0 seq (after_setup seq w)).1 = some e) :
    run P seq w =
      (Outcome.thrown e, (for_each (on_error_t error_ref.exec_ec) 0 seq (after_setup seq w)).2) := by
  have h1' : (setup_phase seq ⟨w, []⟩).2.world.exec.ec.toBool = true := h1
  have h' : (for_each (on_error_t error_ref.exec_ec) 0 seq (setup_phase seq ⟨w, []⟩).2).1
      = some e := h
  unfold run operator_call
  simp only [h0, if_pos h1', h']
  rfl

theorem run_of_success_throw {SI σ : Type} (P : Platform SI σ)
    (seq : List (Component SI σ)) (w : World SI σ) (e : Exception)
    (h0 : (setup_phase seq ⟨w, []⟩).1 = none)
    (h1 : (after_setup seq w).world.exec.ec.toBool = false)
    (h : (success_phase seq (native_result P seq w) (after_native P seq w)).1 = some e) :
    run P seq w = (Outcome.thrown e, after_success P seq w) := by
  rw [run_eq_classify P seq w h0 h1]
  unfold classify_outcome
  simp only [h]
  rfl

theorem run_of_launch_error_throw {SI σ : Type} (P : Platform SI σ)
    (seq : List (Component SI σ)) (w : World SI σ) (e : Exception)
    (h0 : (setup_phase seq ⟨w, []⟩).1 = none)
    (h1 : (after_setup seq w).world.exec.ec.toBool = false)
    (h3 : (success_phase seq (native_result P seq w) (after_native P seq w)).1 = none)
    (hf : native_result P seq w = 0 ∨ (after_success P seq w).world.exec.ec.toBool = true)
    (h : (for_each (on_error_t (error_ref.last_error (last_error P seq w))) 0 seq
      (after_success P seq w)).1 = some e) :
    run P seq w =
      (Outcome.thrown e, (for_each (on_error_t (error_ref.last_error (last_error P seq w))) 0 seq
        (after_success P seq w)).2) := by
  rw [run_eq_classify P seq w h0 h1]
  have hf' : native_result P seq w = 0 ∨
      (success_phase seq (native_result P seq w)
        (after_native P seq w)).2.world.exec.ec.toBool = true := hf
  have h' : (for_each (on_error_t (error_ref.last_error
      (if native_result P seq w = 0 then
        P.get_last_error (success_phase seq (native_result P seq w)
          (after_native P seq w)).2.world.ext
       else (success_phase seq (native_result P seq w)
          (after_native P seq w)).2.world.exec.ec))) 0 seq
      (success_phase seq (native_result P seq w) (after_native P seq w)).2).1 = some e := h
  unfold classify_outcome
  simp only [h3, if_pos hf', h']
  rfl

theorem after_setup_tags_of_ok {SI σ : Type} (seq : List (Component SI σ)) (w : World SI σ)
    (h0 : (setup_phase seq ⟨w, []⟩).1 = none) :
    (after_setup seq w).trace.map Event.tag = (List.range seq.length).map Tag.setup := by
  unfold after_setup
  have := for_each_tags_of_ok on_setup_t Tag.setup hook_tags.1 seq 0 ⟨w, []⟩ h0
  rw [List.range_eq_range']
  simpa [setup_phase] using this

theorem after_success_tags_of_ok {SI σ : Type} (P : Platform SI σ)
    (seq : List (Component SI σ)) (w : World SI σ)
    (h3 : (success_phase seq (native_result P seq w) (after_native P seq w)).1 = none) :
    (after_success P seq w).trace.map Event.tag =
      (after_native P seq w).trace.map Event.tag ++
        (if native_result P seq w = 0 then [] else (List.range seq.length).map Tag.success) := by
  unfold after_success
  by_cases hc : native_result P seq w = 0
  · rw [hc, success_phase_zero]; simp
  · unfold success_phase at h3 ⊢
    rw [if_pos hc] at h3 ⊢
    rw [if_neg hc, List.range_eq_range']
    exact for_each_tags_of_ok on_success_t Tag.success hook_tags.2.1 seq 0 _ h3

theorem shape_nodup (n : Nat) (k : Fin 4) : (shape n k).Nodup := by
  have hs : ((List.range n).map Tag.setup).Nodup :=
    (List.nodup_range n).map (fun a b h => by cases h; rfl)
  have he : ((List.range n).map Tag.error).Nodup :=
    (List.nodup_range n).map (fun a b h => by cases h; rfl)
  have hu : ((List.range n).map Tag.success).Nodup :=
    (List.nodup_range n).map (fun a b h => by cases h; rfl)
  fin_cases k <;>
    simp [shape, List.nodup_append, List.nodup_cons, hs, he, hu, List.Disjoint]

theorem shape_injective (n : Nat) (hn : 0 < n) : Function.Injective (shape n) := by
  obtain ⟨m, rfl⟩ : ∃ m, n = m + 1 := ⟨n - 1, by omega⟩
  intro j k h
  fin_cases j <;> fin_cases k <;> simp [shape, List.range_succ_eq_map] at h ⊢

/-! ## Properties of the executor: policy, native call, exceptions, trace shapes -/

/-- C11: `handle_error(ec, msg)` follows the policy fixed by the sequence.  With an
error-handling component it returns normally and the only change is that the error slot
holds `ec`: the request fields, `proc_info`, the exit-status cell and everything outside
the executor are as before.  Without one it throws `std::system_error(ec, msg)` and changes
nothing, the error slot included.  Whether it throws does not depend on the code, the
message or the state it is called in. -/
theorem C11_handle_error_honours_policy {SI σ : Type} (seq : List (Component SI σ))
    (ec : error_code) (msg : String) (w : World SI σ) :
    (has_error_handler seq = true →
      (handle_error seq ec msg w).1 = none ∧
      (handle_error seq ec msg w).2 = { w with exec := { w.exec with ec := ec } }) ∧
    (has_error_handler seq = false →
      (handle_error seq ec msg w).1 = some (Exception.system_error ec (some msg)) ∧
      (handle_error seq ec msg w).2 = w) ∧
    (∀ (ec2 : error_code) (msg2 : String) (w2 : World SI σ),
      ((handle_error seq ec msg w).1 = none ↔ (handle_error seq ec2 msg2 w2).1 = none)) := by
  unfold handle_error internal_error_handle
  refine ⟨fun hh => ?_, fun hh => ?_, fun ec2 msg2 w2 => ?_⟩
  · rw [hh]; exact ⟨rfl, rfl⟩
  · rw [hh]; exact ⟨rfl, rfl⟩
  · cases has_error_handler seq <;> simp

/-- Witness of C11: both policies at a concrete world. -/
theorem C11_handle_error_honours_policy_witness :
    ((handle_error [Demo.error_handler] ⟨7, error_category.generic_category⟩ "failed"
        Demo.w0).1 = none ∧
      (handle_error [Demo.error_handler] ⟨7, error_category.generic_category⟩ "failed"
        Demo.w0).2 =
        { Demo.w0 with exec := { Demo.w0.exec with ec := ⟨7, error_category.generic_category⟩ } }) ∧
    ((handle_error [Demo.noop] ⟨7, error_category.generic_category⟩ "failed" Demo.w0).1 =
        some (Exception.system_error ⟨7, error_category.generic_category⟩ (some "failed")) ∧
      (handle_error [Demo.noop] ⟨7, error_category.generic_category⟩ "failed" Demo.w0).2 =
        Demo.w0) :=
  ⟨(C11_handle_error_honours_policy [Demo.error_handler] ⟨7, error_category.generic_category⟩
      "failed" Demo.w0).1 (by decide),
    (C11_handle_error_honours_policy [Demo.noop] ⟨7, error_category.generic_category⟩
      "failed" Demo.w0).2.1 (by decide)⟩

/-- C12: when no hook throws, `run()` makes the native call exactly once if the error slot
is clear after setup and not at all otherwise, so at most once in any run; the arguments of
the call are the values of `exe`, `cmd_line`, `proc_attrs`, `thread_attrs`,
`inherit_handles`, `creation_flags`, `env`, `work_dir` and `startup_info` in the state the
setup phase left. -/
theorem C12_native_call_once_with_request_fields {SI σ : Type} (P : Platform SI σ)
    (seq : List (Component SI σ)) (w : World SI σ) (h : no_hook_throws seq) :
    ((after_setup seq w).world.exec.ec.toBool = false →
      native_calls (run P seq w).2.trace =
        [{ lpApplicationName := (after_setup seq w).world.exec.exe
           lpCommandLine := (after_setup seq w).world.exec.cmd_line
           lpProcessAttributes := (after_setup seq w).world.exec.proc_attrs
           lpThreadAttributes := (after_setup seq w).world.exec.thread_attrs
           bInheritHandles := (after_setup seq w).world.exec.inherit_handles
           dwCreationFlags := (after_setup seq w).world.exec.creation_flags
           lpEnvironment := (after_setup seq w).world.exec.env
           lpCurrentDirectory := (after_setup seq w).world.exec.work_dir
           lpStartupInfo := (after_setup seq w).world.exec.startup_info }]) ∧
    ((after_setup seq w).world.exec.ec.toBool = true →
      native_calls (run P seq w).2.trace = []) ∧
    (native_calls (run P seq w).2.trace).length ≤ 1 := by
  have hn := run_native_calls P seq w h
  refine ⟨fun h1 => ?_, fun h1 => ?_, ?_⟩
  · rw [hn, if_neg (by rw [h1]; decide)]
    rfl
  · rw [hn, if_pos h1]
  · rw [hn]
    split <;> simp

/-- Witness of C12: a component sets the executable during setup; the call gets it. -/
theorem C12_native_call_once_with_request_fields_witness :
    no_hook_throws [Demo.set_exe, Demo.error_handler] ∧
    native_calls (run Demo.P [Demo.set_exe, Demo.error_handler] Demo.w0).2.trace =
      [⟨1, 0, 0, 0, 0, 0, 0, 0, ()⟩] ∧
    (native_calls (run Demo.P [Demo.set_exe, Demo.error_handler] Demo.w0).2.trace).length ≤ 1 :=
  ⟨demo_no_hook_throws.2.2.2.2,
    (C12_native_call_once_with_request_fields Demo.P [Demo.set_exe, Demo.error_handler]
      Demo.w0 demo_no_hook_throws.2.2.2.2).1 (by decide),
    (C12_native_call_once_with_request_fields Demo.P [Demo.set_exe, Demo.error_handler]
      Demo.w0 demo_no_hook_throws.2.2.2.2).2.2⟩

/-- C13, refuted as stated: the native call returns non-zero and the error slot holds an
error when the call returns.  The statements after the call clear the slot, run the success
hooks and return the live handle; `on_error` is not called. -/
theorem C13_counterexample :
    Demo.after_call_with_error.world.exec.ec.toBool = true ∧
    (classify_outcome Demo.P [Demo.noop] 1 Demo.after_call_with_error).1 =
      Outcome.returned (child.mk ⟨⟨100, 101, 7, 8⟩⟩ 0) ∧
    (classify_outcome Demo.P [Demo.noop] 1 Demo.after_call_with_error).2.trace =
      Demo.after_call_with_error.trace ++ [Event.on_success 0] ∧
    error_indices (classify_outcome Demo.P [Demo.noop] 1 Demo.after_call_with_error).2.trace = [] ∧
    (classify_outcome Demo.P [Demo.noop] 1
      Demo.after_call_with_error).2.world.exec.ec.toBool = false := by
  decide

/-- C13, amended: the classification trusts an error recorded by the success hooks over the
success signal of the native call.  When no hook throws, setup left the error slot clear,
the native call reports success and the slot is set after the `on_success` hooks, `run()`
calls `on_error` on every component with the recorded error and ends by the error policy
(empty handle with an error handler, `std::system_error` without), not with the live
handle.  What the slot holds when a successful native call returns has no effect: it is
cleared before the success hooks run. -/
theorem C13_error_after_success_hooks_overrides {SI σ : Type} (P : Platform SI σ)
    (seq : List (Component SI σ)) (w : World SI σ) (h : no_hook_throws seq)
    (h1 : (after_setup seq w).world.exec.ec.toBool = false)
    (h2 : native_result P seq w ≠ 0)
    (h3 : (after_success P seq w).world.exec.ec.toBool = true) :
    (run P seq w).1 =
      (if has_error_handler seq = true then Outcome.returned child.default
       else Outcome.thrown (Exception.system_error (after_success P seq w).world.exec.ec none)) ∧
    (run P seq w).1 ≠ Outcome.returned (live_child P seq w) ∧
    (run P seq w).2.trace =
      (List.range seq.length).map Event.on_setup ++
        [Event.create_process (native_args (after_setup seq w).world.exec)] ++
        (List.range seq.length).map Event.on_success ++
        (List.range seq.length).map
          (fun i => Event.on_error i (after_success P seq w).world.exec.ec) ∧
    (∀ (s : State SI σ) (code : Int) (ec : error_code), code ≠ 0 →
      classify_outcome P seq code (s.with_ec ec) = classify_outcome P seq code s) := by
  have hl : last_error P seq w = (after_success P seq w).world.exec.ec := by
    unfold last_error; rw [if_neg h2]
  have hr := run_no_throw P seq w h
  rw [if_neg (by rw [h1]; decide), if_pos (Or.inr h3), hl] at hr
  have hout : (run P seq w).1 =
      (if has_error_handler seq = true then Outcome.returned child.default
       else Outcome.thrown (Exception.system_error (after_success P seq w).world.exec.ec none)) := by
    rw [hr]
    cases has_error_handler seq <;> simp [internal_throw]
  refine ⟨hout, ?_, ?_, ?_⟩
  · rw [hout]
    unfold live_child
    split <;> intro hc <;> cases hc
  · rw [hr]
    show (for_each (on_error_t (error_ref.last_error (after_success P seq w).world.exec.ec)) 0 seq
      (after_success P seq w)).2.trace = _
    rw [error_phase_trace seq h, after_success_trace P seq h, if_neg h2, after_native_trace,
      after_setup_trace seq h]
  · intro s code ec hc
    unfold classify_outcome success_phase State.with_ec error_code.clear
    simp only [hc, ne_eq, not_false_eq_true, if_true]

/-- Witness of C13 (amended): an `on_success` hook records an error after a successful
native call, without an error-handling component. -/
theorem C13_error_after_success_hooks_overrides_witness :
    no_hook_throws [Demo.set_exe, Demo.fail_on_success] ∧
    (after_setup [Demo.set_exe, Demo.fail_on_success] Demo.w0).world.exec.ec.toBool = false ∧
    native_result Demo.P [Demo.set_exe, Demo.fail_on_success] Demo.w0 ≠ 0 ∧
    (after_success Demo.P [Demo.set_exe, Demo.fail_on_success] Demo.w0).world.exec.ec.toBool
      = true ∧
    (run Demo.P [Demo.set_exe, Demo.fail_on_success] Demo.w0).1 =
      Outcome.thrown (Exception.system_error ⟨9, error_category.generic_category⟩ none) ∧
    (run Demo.P [Demo.set_exe, Demo.fail_on_success] Demo.w0).2.trace =
      [Event.on_setup 0, Event.on_setup 1, Event.create_process ⟨1, 0, 0, 0, 0, 0, 0, 0, ()⟩,
        Event.on_success 0, Event.on_success 1,
        Event.on_error 0 ⟨9, error_category.generic_category⟩,
        Event.on_error 1 ⟨9, error_category.generic_category⟩] :=
  ⟨demo_no_hook_throws.2.2.2.1, by decide, by decide, by decide,
    (C13_error_after_success_hooks_overrides Demo.P [Demo.set_exe, Demo.fail_on_success]
      Demo.w0 demo_no_hook_throws.2.2.2.1 (by decide) (by decide) (by decide)).1,
    (C13_error_after_success_hooks_overrides Demo.P [Demo.set_exe, Demo.fail_on_success]
      Demo.w0 demo_no_hook_throws.2.2.2.1 (by decide) (by decide) (by decide)).2.2.1⟩

/-- C14: the code at the failing input.  Under the recoverable policy the first component
sets the error slot to code 5 during setup and the `on_error` hook of the second component
reports code 7 through `handle_error`.  The second hook is passed the stored error, the
third is passed code 7: `on_error_t` holds a reference to the slot, not its value. -/
theorem C14_later_on_error_sees_rewritten_slot :
    has_error_handler [Demo.handler_set_ec, Demo.report_on_error true, Demo.noop] = true ∧
    (∀ r w, (Demo.report_on_error true).on_error r w =
      handle_error [Demo.handler_set_ec, Demo.report_on_error true, Demo.noop]
        ⟨7, error_category.generic_category⟩ "cleanup failed" w) ∧
    (after_setup [Demo.handler_set_ec, Demo.report_on_error true, Demo.noop]
      Demo.w0).world.exec.ec = ⟨5, error_category.generic_category⟩ ∧
    (run Demo.P [Demo.handler_set_ec, Demo.report_on_error true, Demo.noop] Demo.w0).1 =
      Outcome.returned child.default ∧
    (run Demo.P [Demo.handler_set_ec, Demo.report_on_error true, Demo.noop] Demo.w0).2.trace =
      [Event.on_setup 0, Event.on_setup 1, Event.on_setup 2,
        Event.on_error 0 ⟨5, error_category.generic_category⟩,
        Event.on_error 1 ⟨5, error_category.generic_category⟩,
        Event.on_error 2 ⟨7, error_category.generic_category⟩] :=
  ⟨by decide, fun _ _ => rfl, by decide, by decide, by decide⟩

/-- C15, refuted as stated: without an error-handling component the `on_setup` hook of the
first component reports an error through `handle_error`.  The exception leaves `run()` at
once: no `on_error` hook is called, and the second component is not even set up. -/
theorem C15_counterexample :
    has_error_handler [Demo.report_on_setup false, Demo.noop] = false ∧
    (∀ w, (Demo.report_on_setup false).on_setup w =
      handle_error [Demo.report_on_setup false, Demo.noop]
        ⟨3, error_category.generic_category⟩ "bad configuration" w) ∧
    (run Demo.P [Demo.report_on_setup false, Demo.noop] Demo.w0).1 =
      Outcome.thrown (Exception.system_error ⟨3, error_category.generic_category⟩
        (some "bad configuration")) ∧
    (run Demo.P [Demo.report_on_setup false, Demo.noop] Demo.w0).2.trace = [Event.on_setup 0] ∧
    error_indices (run Demo.P [Demo.report_on_setup false, Demo.noop] Demo.w0).2.trace = [] :=
  ⟨by decide, fun _ => rfl, by decide, by decide, by decide⟩

/-- C15, amended: under both policies, when no hook throws, every component's `on_error`
has run, once and in order, when `run()` ends an attempt that `run()` itself classifies as
failed.  In the propagating-policy case where a component reports a setup error through
`handle_error` during `on_setup` (the components before it having been set up normally),
`handle_error` throws at once and that exception ends `run()`: the trace holds the
`on_setup` calls up to that component and no `on_error` call. -/
theorem C15_on_error_before_failure_is_observed {SI σ : Type} (P : Platform SI σ)
    (pre : List (Component SI σ)) (t : Component SI σ) (post : List (Component SI σ))
    (w : World SI σ) (ec : error_code) (msg : String) :
    (no_hook_throws (pre ++ t :: post) → failed_attempt P (pre ++ t :: post) w →
      error_indices (run P (pre ++ t :: post) w).2.trace =
        List.range (pre ++ t :: post).length) ∧
    (has_error_handler (pre ++ t :: post) = false →
      (∀ u ∈ pre, ∀ x : World SI σ, (u.on_setup x).1 = none) →
      (∀ x : World SI σ, t.on_setup x = handle_error (pre ++ t :: post) ec msg x) →
      (run P (pre ++ t :: post) w).1 = Outcome.thrown (Exception.system_error ec (some msg)) ∧
      (run P (pre ++ t :: post) w).2.trace.map Event.tag =
        (List.range (pre.length + 1)).map Tag.setup ∧
      error_indices (run P (pre ++ t :: post) w).2.trace = []) := by
  refine ⟨fun h hf => failed_error_indices P _ w h hf, fun hh hpre ht => ?_⟩
  have hthrow : throws_at on_setup_t pre t (⟨w, []⟩ : State SI σ)
      (Exception.system_error ec (some msg)) := by
    refine ⟨for_each_no_throw on_setup_t pre (fun u hu _ s => hpre u hu s.world) 0 _, ?_⟩
    show (t.on_setup _).1 = _
    rw [ht]
    unfold handle_error internal_error_handle
    rw [hh]
    rfl
  have hsetup := for_each_throw on_setup_t pre t post ⟨w, []⟩ _ hthrow
  have hrun := run_of_setup_throw P (pre ++ t :: post) w _
    (show (setup_phase (pre ++ t :: post) ⟨w, []⟩).1 = _ by unfold setup_phase; rw [hsetup])
  have htags : (run P (pre ++ t :: post) w).2.trace.map Event.tag =
      (List.range (pre.length + 1)).map Tag.setup := by
    rw [hrun]
    show (setup_phase (pre ++ t :: post) ⟨w, []⟩).2.trace.map Event.tag = _
    unfold setup_phase
    rw [hsetup]
    simpa using state_at_throw_tags on_setup_t Tag.setup hook_tags.1 pre t ⟨w, []⟩ _ hthrow
  refine ⟨by rw [hrun], htags, ?_⟩
  unfold error_indices
  rw [htags]
  exact (filterMap_index_other _).1

/-- Witness of C15 (amended): the propagating-policy case at a concrete sequence. -/
theorem C15_on_error_before_failure_is_observed_witness :
    has_error_handler ([] ++ Demo.report_on_setup false :: [Demo.noop]) = false ∧
    (run Demo.P ([] ++ Demo.report_on_setup false :: [Demo.noop]) Demo.w0).1 =
      Outcome.thrown (Exception.system_error ⟨3, error_category.generic_category⟩
        (some "bad configuration")) ∧
    (run Demo.P ([] ++ Demo.report_on_setup false :: [Demo.noop]) Demo.w0).2.trace.map Event.tag =
      (List.range (([] : List (Component Unit Nat)).length + 1)).map Tag.setup ∧
    error_indices (run Demo.P ([] ++ Demo.report_on_setup false :: [Demo.noop]) Demo.w0).2.trace
      = [] :=
  ⟨by decide,
    (C15_on_error_before_failure_is_observed Demo.P [] (Demo.report_on_setup false) [Demo.noop]
      Demo.w0 ⟨3, error_category.generic_category⟩ "bad configuration").2 (by decide)
      (fun u hu => absurd hu (List.not_mem_nil u)) (fun _ => rfl)⟩

/-- C16: an exception thrown by the hook of the component at position `pre.length` ends
`run()` with that exception, whether or not an error-handling component is present, and
nothing is called after the throwing hook.  Thrown by `on_setup`: the trace is the `on_setup`
calls up to that component, so no native call is made.  Thrown by `on_error` after a setup
failure, by `on_success`, or by `on_error` after the native call: the trace is that of the
phases before, followed by the calls of the current phase up to that component. -/
theorem C16_hook_exception_propagates {SI σ : Type} (P : Platform SI σ)
    (pre : List (Component SI σ)) (t : Component SI σ) (post : List (Component SI σ))
    (w : World SI σ) (e : Exception) :
    (throws_at on_setup_t pre t ⟨w, []⟩ e →
      (run P (pre ++ t :: post) w).1 = Outcome.thrown e ∧
      (run P (pre ++ t :: post) w).2.trace.map Event.tag =
        (List.range (pre.length + 1)).map Tag.setup) ∧
    ((setup_phase (pre ++ t :: post) ⟨w, []⟩).1 = none →
      (after_setup (pre ++ t :: post) w).world.exec.ec.toBool = true →
      throws_at (on_error_t error_ref.exec_ec) pre t (after_setup (pre ++ t :: post) w) e →
      (run P (pre ++ t :: post) w).1 = Outcome.thrown e ∧
      (run P (pre ++ t :: post) w).2.trace.map Event.tag =
        (List.range (pre ++ t :: post).length).map Tag.setup ++
          (List.range (pre.length + 1)).map Tag.error) ∧
    ((setup_phase (pre ++ t :: post) ⟨w, []⟩).1 = none →
      (after_setup (pre ++ t :: post) w).world.exec.ec.toBool = false →
      native_result P (pre ++ t :: post) w ≠ 0 →
      throws_at on_success_t pre t
        ((after_native P (pre ++ t :: post) w).with_ec
          (after_native P (pre ++ t :: post) w).world.exec.ec.clear) e →
      (run P (pre ++ t :: post) w).1 = Outcome.thrown e ∧
      (run P (pre ++ t :: post) w).2.trace.map Event.tag =
        (List.range (pre ++ t :: post).length).map Tag.setup ++
          Tag.native :: (List.range (pre.length + 1)).map Tag.success) ∧
    ((setup_phase (pre ++ t :: post) ⟨w, []⟩).1 = none →
      (after_setup (pre ++ t :: post) w).world.exec.ec.toBool = false →
      (success_phase (pre ++ t :: post) (native_result P (pre ++ t :: post) w)
        (after_native P (pre ++ t :: post) w)).1 = none →
      (native_result P (pre ++ t :: post) w = 0 ∨
        (after_success P (pre ++ t :: post) w).world.exec.ec.toBool = true) →
      throws_at (on_error_t (error_ref.last_error (last_error P (pre ++ t :: post) w))) pre t
        (after_success P (pre ++ t :: post) w) e →
      (run P (pre ++ t :: post) w).1 = Outcome.thrown e ∧
      (run P (pre ++ t :: post) w).2.trace.map Event.tag =
        (List.range (pre ++ t :: post).length).map Tag.setup ++
          Tag.native :: ((if native_result P (pre ++ t :: post) w = 0 then []
            else (List.range (pre ++ t :: post).length).map Tag.success) ++
            (List.range (pre.length + 1)).map Tag.error)) := by
  refine ⟨fun hthrow => ?_, fun h0 h1 hthrow => ?_, fun h0 h1 h2 hthrow => ?_,
    fun h0 h1 h3 hf hthrow => ?_⟩
  · have hsetup := for_each_throw on_setup_t pre t post ⟨w, []⟩ _ hthrow
    have hrun := run_of_setup_throw P (pre ++ t :: post) w e
      (show (setup_phase (pre ++ t :: post) ⟨w, []⟩).1 = _ by unfold setup_phase; rw [hsetup])
    refine ⟨by rw [hrun], ?_⟩
    rw [hrun]
    show (setup_phase (pre ++ t :: post) ⟨w, []⟩).2.trace.map Event.tag = _
    unfold setup_phase
    rw [hsetup]
    simpa using state_at_throw_tags on_setup_t Tag.setup hook_tags.1 pre t ⟨w, []⟩ _ hthrow
  · have herr := for_each_throw (on_error_t error_ref.exec_ec) pre t post _ _ hthrow
    have hrun := run_of_setup_error_throw P (pre ++ t :: post) w e h0 h1 (by rw [herr])
    refine ⟨by rw [hrun], ?_⟩
    rw [hrun, herr]
    show (state_at_throw (on_error_t error_ref.exec_ec) pre t
      (after_setup (pre ++ t :: post) w)).trace.map Event.tag = _
    rw [state_at_throw_tags (on_error_t error_ref.exec_ec) Tag.error (hook_tags.2.2 _) pre t _ _
      hthrow, after_setup_tags_of_ok _ w h0]
  · have hsp : success_phase (pre ++ t :: post) (native_result P (pre ++ t :: post) w)
        (after_native P (pre ++ t :: post) w) =
        for_each on_success_t 0 (pre ++ t :: post)
          ((after_native P (pre ++ t :: post) w).with_ec
            (after_native P (pre ++ t :: post) w).world.exec.ec.clear) := by
      unfold success_phase
      rw [if_pos h2]
      rfl
    have hsucc := for_each_throw on_success_t pre t post _ _ hthrow
    have hrun := run_of_success_throw P (pre ++ t :: post) w e h0 h1 (by rw [hsp, hsucc])
    refine ⟨by rw [hrun], ?_⟩
    rw [hrun]
    show (success_phase (pre ++ t :: post) (native_result P (pre ++ t :: post) w)
        (after_native P (pre ++ t :: post) w)).2.trace.map Event.tag = _
    rw [hsp, hsucc]
    show (state_at_throw on_success_t pre t _).trace.map Event.tag = _
    rw [state_at_throw_tags on_success_t Tag.success hook_tags.2.1 pre t _ _ hthrow]
    show (after_native P (pre ++ t :: post) w).trace.map Event.tag ++ _ = _
    rw [after_native_trace, List.map_append, after_setup_tags_of_ok _ w h0]
    simp [Event.tag]
  · have herr := for_each_throw
      (on_error_t (error_ref.last_error (last_error P (pre ++ t :: post) w))) pre t post _ _ hthrow
    have hrun := run_of_launch_error_throw P (pre ++ t :: post) w e h0 h1 h3 hf (by rw [herr])
    refine ⟨by rw [hrun], ?_⟩
    rw [hrun, herr]
    show (state_at_throw _ pre t (after_success P (pre ++ t :: post) w)).trace.map Event.tag = _
    rw [state_at_throw_tags _ Tag.error (hook_tags.2.2 _) pre t _ _ hthrow,
      after_success_tags_of_ok P _ w h3, after_native_trace, List.map_append,
      after_setup_tags_of_ok _ w h0]
    simp [Event.tag]

/-- Witness of C16: a hook of the second of three components throws, in `on_setup` and in
`on_success`; an error handler is present in the first case. -/
theorem C16_hook_exception_propagates_witness :
    throws_at on_setup_t [Demo.error_handler] Demo.throw_on_setup ⟨Demo.w0, []⟩
      (Exception.other 1) ∧
    ((run Demo.P ([Demo.error_handler] ++ Demo.throw_on_setup :: [Demo.noop]) Demo.w0).1 =
      Outcome.thrown (Exception.other 1) ∧
    (run Demo.P ([Demo.error_handler] ++ Demo.throw_on_setup :: [Demo.noop])
      Demo.w0).2.trace.map Event.tag =
        (List.range ([Demo.error_handler].length + 1)).map Tag.setup) ∧
    ((run Demo.P ([Demo.set_exe] ++ Demo.throw_on_success :: [Demo.noop]) Demo.w0).1 =
      Outcome.thrown (Exception.other 2) ∧
    (run Demo.P ([Demo.set_exe] ++ Demo.throw_on_success :: [Demo.noop])
      Demo.w0).2.trace.map Event.tag =
        (List.range ([Demo.set_exe] ++ Demo.throw_on_success :: [Demo.noop]).length).map Tag.setup ++
          Tag.native :: (List.range ([Demo.set_exe].length + 1)).map Tag.success) :=
  ⟨⟨by decide, by decide⟩,
    (C16_hook_exception_propagates Demo.P [Demo.error_handler] Demo.throw_on_setup [Demo.noop]
      Demo.w0 (Exception.other 1)).1 ⟨by decide, by decide⟩,
    (C16_hook_exception_propagates Demo.P [Demo.set_exe] Demo.throw_on_success [Demo.noop]
      Demo.w0 (Exception.other 2)).2.2.1 (by decide) (by decide) (by decide)
      ⟨by decide, by decide⟩⟩

/-- C17: for a sequence of `n` components whose hooks do not throw, exactly one of four
cases holds and fixes the complete trace of `run()`: (1) error slot set after setup: setup
calls, then error calls; (2) native call failed: setup calls, native call, error calls;
(3) native call succeeded and the slot is clear after the success hooks: setup calls, native
call, success calls, and the live handle is returned; (4) native call succeeded and the
slot is set after the success hooks: setup calls, native call, success calls, error calls.
Each phase visits the positions `0, ..., n-1` in order.  No call occurs twice in the trace,
so the native call is made at most once and no hook is called more than once per phase.
For a non-empty sequence the four shapes differ, so the trace has exactly one of them. -/
theorem C17_trace_has_one_of_four_shapes {SI σ : Type} (P : Platform SI σ)
    (seq : List (Component SI σ)) (w : World SI σ) (h : no_hook_throws seq) :
    (((after_setup seq w).world.exec.ec.toBool = true ∧
        (run P seq w).2.trace.map Event.tag = shape seq.length 0) ∨
      ((after_setup seq w).world.exec.ec.toBool = false ∧ native_result P seq w = 0 ∧
        (run P seq w).2.trace.map Event.tag = shape seq.length 1) ∨
      ((after_setup seq w).world.exec.ec.toBool = false ∧ native_result P seq w ≠ 0 ∧
        (after_success P seq w).world.exec.ec.toBool = false ∧
        (run P seq w).2.trace.map Event.tag = shape seq.length 2 ∧
        (run P seq w).1 = Outcome.returned (live_child P seq w)) ∨
      ((after_setup seq w).world.exec.ec.toBool = false ∧ native_result P seq w ≠ 0 ∧
        (after_success P seq w).world.exec.ec.toBool = true ∧
        (run P seq w).2.trace.map Event.tag = shape seq.length 3)) ∧
    ((run P seq w).2.trace.map Event.tag).Nodup ∧
    (0 < seq.length → ∃! k, (run P seq w).2.trace.map Event.tag = shape seq.length k) := by
  have ht := run_tags_no_throw P seq w h
  have hr := run_no_throw P seq w h
  have hk : ∃ k, (run P seq w).2.trace.map Event.tag = shape seq.length k := by
    by_cases h1 : (after_setup seq w).world.exec.ec.toBool = true
    · exact ⟨0, by rw [ht, if_pos h1]; rfl⟩
    · by_cases h2 : native_result P seq w = 0
      · exact ⟨1, by rw [ht, if_neg h1, if_pos h2]; rfl⟩
      · by_cases h3 : (after_success P seq w).world.exec.ec.toBool = true
        · exact ⟨3, by rw [ht, if_neg h1, if_neg h2, if_pos h3]; rfl⟩
        · exact ⟨2, by rw [ht, if_neg h1, if_neg h2, if_neg h3]; rfl⟩
  refine ⟨?_, ?_, fun hn => ?_⟩
  · by_cases h1 : (after_setup seq w).world.exec.ec.toBool = true
    · exact Or.inl ⟨h1, by rw [ht, if_pos h1]; rfl⟩
    · have h1f : (after_setup seq w).world.exec.ec.toBool = false := by
        simpa using h1
      by_cases h2 : native_result P seq w = 0
      · exact Or.inr (Or.inl ⟨h1f, h2, by rw [ht, if_neg h1, if_pos h2]; rfl⟩)
      · by_cases h3 : (after_success P seq w).world.exec.ec.toBool = true
        · exact Or.inr (Or.inr (Or.inr
            ⟨h1f, h2, h3, by rw [ht, if_neg h1, if_neg h2, if_pos h3]; rfl⟩))
        · have h3f : (after_success P seq w).world.exec.ec.toBool = false := by
            simpa using h3
          refine Or.inr (Or.inr (Or.inl
            ⟨h1f, h2, h3f, by rw [ht, if_neg h1, if_neg h2, if_neg h3]; rfl, ?_⟩))
          rw [hr, if_neg h1, if_neg (by rintro (hc | hc); exact h2 hc; exact h3 hc)]
  · obtain ⟨k, hk⟩ := hk
    rw [hk]
    exact shape_nodup _ k
  · obtain ⟨k, hk⟩ := hk
    refine ⟨k, hk, fun j hj => ?_⟩
    exact shape_injective _ hn (hj.symm.trans hk)

/-- Witness of C17: the fourth shape, with two components. -/
theorem C17_trace_has_one_of_four_shapes_witness :
    no_hook_throws [Demo.set_exe, Demo.fail_on_success] ∧
    (run Demo.P [Demo.set_exe, Demo.fail_on_success] Demo.w0).2.trace.map Event.tag =
      [Tag.setup 0, Tag.setup 1, Tag.native, Tag.success 0, Tag.success 1,
        Tag.error 0, Tag.error 1] ∧
    ((run Demo.P [Demo.set_exe, Demo.fail_on_success] Demo.w0).2.trace.map Event.tag).Nodup ∧
    (∃! k, (run Demo.P [Demo.set_exe, Demo.fail_on_success] Demo.w0).2.trace.map Event.tag =
      shape [Demo.set_exe, Demo.fail_on_success].length k) :=
  ⟨demo_no_hook_throws.2.2.2.1, by decide,
    (C17_trace_has_one_of_four_shapes Demo.P [Demo.set_exe, Demo.fail_on_success] Demo.w0
      demo_no_hook_throws.2.2.2.1).2.1,
    (C17_trace_has_one_of_four_shapes Demo.P [Demo.set_exe, Demo.fail_on_success] Demo.w0
      demo_no_hook_throws.2.2.2.1).2.2 (by decide)⟩

end BoostProcess
